import Mathlib

/-!
Verification of `hover/postproc/process_utils.py` (hovernet_inference).

Shallow embedding conventions:
* A 2-D numpy array is a `Grid α := List (List α)` (rows of entries); a 3-channel
  prediction map is a `Grid (List ℚ)` (each pixel carries its channel list).
* All floating-point arithmetic (float32/float64 in the source) is modelled
  exactly over `ℚ`; the cv2/scipy/skimage primitives used by the source
  (thresholding, 4-connected labeling, small-object removal, min-max
  normalization, 21-tap Sobel with BORDER_REFLECT_101, 3x3 Gaussian blur with
  the fixed [1/4,1/2,1/4] kernel cv2 uses for sigma 0, binary hole filling,
  5x5 elliptic opening, marker-controlled watershed) are embedded by their
  documented semantics as executable definitions.
* Fallible Python code (IndexError on a missing contour, ZeroDivisionError in
  the centroid computation) is modelled with `Except String`.
* Out-of-range reads use `List.getD` defaults only where the embedded theorems
  restrict attention to in-range/rectangular inputs matching the source's
  non-error domain.
-/

attribute [local semireducible] Rat.add Rat.sub Rat.mul Rat.inv

instance {ε α : Type} [DecidableEq ε] [DecidableEq α] : DecidableEq (Except ε α) := fun x y =>
  match x, y with
  | .error a, .error b =>
    if h : a = b then .isTrue (by rw [h]) else .isFalse (fun hc => by cases hc; exact h rfl)
  | .error _, .ok _ => .isFalse (fun hc => by cases hc)
  | .ok _, .error _ => .isFalse (fun hc => by cases hc)
  | .ok a, .ok b =>
    if h : a = b then .isTrue (by rw [h]) else .isFalse (fun hc => by cases hc; exact h rfl)

/-- A 2-D array: a list of rows. -/
abbrev Grid (α : Type) : Type := List (List α)

/-- Number of rows. -/
def gH (g : Grid α) : Nat := g.length

/-- Number of columns (length of the first row; all grids built by the
pipeline are rectangular). -/
def gW (g : Grid α) : Nat := (g.headD []).length

/-- Read entry `(r, c)` with default `d`. -/
def gGet (g : Grid α) (d : α) (r c : Nat) : α := (g.getD r []).getD c d

/-- Build an `H x W` grid from an index function. -/
def gOfFn (H W : Nat) (f : Nat → Nat → α) : Grid α :=
  (List.range H).map (fun r => (List.range W).map (fun c => f r c))

/-- Write entry `(r, c)` (used by the watershed flood). -/
def gSet (g : Grid α) (r c : Nat) (v : α) : Grid α :=
  g.set r ((g.getD r []).set c v)

/-- All raster-order positions of an `H x W` grid. -/
def rasterPositions (H W : Nat) : List (Nat × Nat) :=
  (List.range H).flatMap (fun r => (List.range W).map (fun c => (r, c)))

/-- The 4-connected neighbours of `(r, c)` (cross / connectivity-1 structure,
as used by scipy `measurements.label`, `binary_fill_holes` and the skimage
watershed); candidates below row/column zero are dropped, candidates past the
upper bounds are harmless because every consumer checks bounds or reads with a
background default. -/
def nbs4 (r c : Nat) : List (Nat × Nat) :=
  (if r = 0 then [] else [(r - 1, c)]) ++
    (if c = 0 then [] else [(r, c - 1)]) ++ [(r + 1, c), (r, c + 1)]

/-- Pixelwise threshold: `np.array(x >= t, dtype=int)`. -/
def thresholdGE (t : ℚ) (g : Grid ℚ) : Grid Nat :=
  gOfFn (gH g) (gW g) (fun r c => if t ≤ gGet g 0 r c then 1 else 0)

/-- Ascending list of the distinct values of a list. -/
def sortedNodup (l : List Nat) : List Nat :=
  List.insertionSort (· ≤ ·) l.dedup

/-- Ascending list of the distinct values of a grid (`np.unique`). -/
def uniqueVals (g : Grid Nat) : List Nat := sortedNodup g.flatten

/-- Flood fill: every pixel on the worklist is already labeled; repeatedly
pop one and label-and-enqueue its unlabeled foreground 4-neighbours, so each
pixel enters the worklist at most once. -/
def bfsMark (m : Grid Nat) (lab : Nat) : Nat → Grid Nat → List (Nat × Nat) → Grid Nat
  | 0, l, _ => l
  | _, l, [] => l
  | fuel + 1, l, p :: rest =>
    let st :=
      (nbs4 p.1 p.2).foldl
        (fun (st : Grid Nat × List (Nat × Nat)) q =>
          if gGet m 0 q.1 q.2 ≠ 0 ∧ gGet st.1 0 q.1 q.2 = 0 then
            (gSet st.1 q.1 q.2 lab, q :: st.2)
          else st)
        (l, rest)
    bfsMark m lab fuel st.1 st.2

/-- Connected-component labeling with the cross structuring element and
labels `1..n` in raster order of first encounter: the semantics of
`scipy.ndimage.measurements.label(...)[0]` on a 2-D array. -/
def labelComponents (m : Grid Nat) : Grid Nat :=
  ((rasterPositions (gH m) (gW m)).foldl
    (fun (st : Grid Nat × Nat) p =>
      if gGet m 0 p.1 p.2 ≠ 0 ∧ gGet st.1 0 p.1 p.2 = 0 then
        (bfsMark m st.2 (gH m * gW m + 1) (gSet st.1 p.1 p.2 st.2) [p], st.2 + 1)
      else st)
    (gOfFn (gH m) (gW m) (fun _ _ => 0), 1)).1

/-- Number of occurrences of value `v` in a grid. -/
def countVal (g : Grid Nat) (v : Nat) : Nat :=
  (g.flatten.filter (fun x => x = v)).length

/-- skimage `remove_small_objects(g, min_size)` on a labeled image: zero out
every label whose pixel count is strictly below `min_size`. -/
def remove_small_objects (g : Grid Nat) (min_size : Nat) : Grid Nat :=
  gOfFn (gH g) (gW g)
    (fun r c =>
      if gGet g 0 r c = 0 then 0
      else if gGet g 0 r c ∈ (uniqueVals g).filter (fun v => countVal g v < min_size) then 0
      else gGet g 0 r c)

/-- Collapse all positive labels to one: `blb[blb > 0] = 1`. -/
def binarizePos (g : Grid Nat) : Grid Nat :=
  gOfFn (gH g) (gW g) (fun r c => if 0 < gGet g 0 r c then 1 else 0)

/-- One halving pass of a balanced binary reduction. -/
def reducePairs (f : ℚ → ℚ → ℚ) : List ℚ → List ℚ
  | [] => []
  | [a] => [a]
  | a :: b :: rest => f a b :: reducePairs f rest

/-- Balanced binary reduction of a list (the value equals the left fold of
`f` over a nonempty list for associative commutative `f`; the balanced shape
keeps evaluation shallow). -/
def reduceList (f : ℚ → ℚ → ℚ) : Nat → List ℚ → ℚ
  | 0, l => l.headD 0
  | fuel + 1, l =>
    match l with
    | [] => 0
    | [a] => a
    | l => reduceList f fuel (reducePairs f l)

/-- Minimum entry of a rational grid. -/
def gMin (g : Grid ℚ) : ℚ :=
  let l := g.flatten
  reduceList min l.length l

/-- Maximum entry of a rational grid. -/
def gMax (g : Grid ℚ) : ℚ :=
  let l := g.flatten
  reduceList max l.length l

/-- cv2 `normalize(..., alpha=0, beta=1, NORM_MINMAX)`: affine rescale onto
[0, 1]; a constant image maps to all zeros (cv2 uses scale 0 then). -/
def normalizeMinMax (g : Grid ℚ) : Grid ℚ :=
  let m := gMin g
  let M := gMax g
  gOfFn (gH g) (gW g)
    (fun r c => if M = m then 0 else (gGet g 0 r c - m) / (M - m))

/-- Binomial smoothing step of the OpenCV Sobel kernel construction. -/
def smoothStep (l : List Int) : List Int :=
  List.zipWith (· + ·) (l ++ [0]) (0 :: l)

/-- Differencing step of the OpenCV Sobel kernel construction. -/
def derivStep (l : List Int) : List Int :=
  List.zipWith (fun a b => b - a) (l ++ [0]) (0 :: l)

/-- Iterated binomial kernel: `pascalKer n` has length `n + 1`. -/
def pascalKer : Nat → List Int
  | 0 => [1]
  | n + 1 => smoothStep (pascalKer n)

/-- The 21-tap first-derivative Sobel kernel OpenCV builds for
`cv2.Sobel(..., dx=1, ksize=21)`. -/
def sobelKerD : List Int := derivStep (pascalKer 19)

/-- The 21-tap smoothing kernel OpenCV pairs with it on the other axis. -/
def sobelKerS : List Int := pascalKer 20

/-- cv2 `borderInterpolate(i, n, BORDER_REFLECT_101)`. -/
def reflect101 (n : Nat) (i : Int) : Nat :=
  if n ≤ 1 then 0
  else
    let T : Int := 2 * (n : Int) - 2
    let j := (i % T).toNat
    if j < n then j else T.toNat - j

/-- Separable 21-tap correlation: row kernel `kx` along x, column kernel `ky`
along y, BORDER_REFLECT_101 boundary handling (the cv2 `Sobel` default). -/
def sobelSep (kx ky : List Int) (g : Grid ℚ) : Grid ℚ :=
  let H := gH g
  let W := gW g
  let tmp : Grid ℚ :=
    gOfFn H W (fun r x =>
      (List.range 21).foldl
        (fun acc j =>
          acc + (kx.getD j 0 : ℚ) * gGet g 0 r (reflect101 W ((x : Int) + (j : Int) - 10)))
        0)
  gOfFn H W (fun y x =>
    (List.range 21).foldl
      (fun acc j =>
        acc + (ky.getD j 0 : ℚ) * gGet tmp 0 (reflect101 H ((y : Int) + (j : Int) - 10)) x)
      0)

/-- `cv2.Sobel(g, cv2.CV_64F, 1, 0, ksize=21)`. -/
def sobelX (g : Grid ℚ) : Grid ℚ := sobelSep sobelKerD sobelKerS g

/-- `cv2.Sobel(g, cv2.CV_64F, 0, 1, ksize=21)`. -/
def sobelY (g : Grid ℚ) : Grid ℚ := sobelSep sobelKerS sobelKerD g

/-- `cv2.GaussianBlur(g, (3, 3), 0)`: for ksize 3 and sigma 0 cv2 uses the
fixed separable kernel [1/4, 1/2, 1/4], with BORDER_REFLECT_101. -/
def gaussianBlur3 (g : Grid ℚ) : Grid ℚ :=
  let H := gH g
  let W := gW g
  let k : List ℚ := [1/4, 1/2, 1/4]
  let tmp : Grid ℚ :=
    gOfFn H W (fun r x =>
      (List.range 3).foldl
        (fun acc j =>
          acc + k.getD j 0 * gGet g 0 r (reflect101 W ((x : Int) + (j : Int) - 1)))
        0)
  gOfFn H W (fun y x =>
    (List.range 3).foldl
      (fun acc j =>
        acc + k.getD j 0 * gGet tmp 0 (reflect101 H ((y : Int) + (j : Int) - 1)) x)
      0)

/-- Pixelwise `1 - x` on an inverted-and-normalized derivative map. -/
def oneMinus (g : Grid ℚ) : Grid ℚ :=
  gOfFn (gH g) (gW g) (fun r c => 1 - gGet g 0 r c)

/-- Pixelwise maximum (`np.maximum`). -/
def pointMax (a b : Grid ℚ) : Grid ℚ :=
  gOfFn (gH a) (gW a) (fun r c => max (gGet a 0 r c) (gGet b 0 r c))

/-- `overall = overall - (1 - blb); overall[overall < 0] = 0` in one step. -/
def subComplClip (a : Grid ℚ) (blb : Grid Nat) : Grid ℚ :=
  gOfFn (gH a) (gW a)
    (fun r c =>
      let b : Nat := gGet blb 0 r c
      max 0 (gGet a 0 r c - (1 - (b : ℚ))))

/-- `dist = (1.0 - overall) * blb`. -/
def distRaw (overall : Grid ℚ) (blb : Grid Nat) : Grid ℚ :=
  gOfFn (gH overall) (gW overall)
    (fun r c =>
      let b : Nat := gGet blb 0 r c
      (1 - gGet overall 0 r c) * (b : ℚ))

/-- Pixelwise negation. -/
def gNeg (g : Grid ℚ) : Grid ℚ :=
  gOfFn (gH g) (gW g) (fun r c => -(gGet g 0 r c))

/-- `marker = blb - overall; marker[marker < 0] = 0` (integer images). -/
def subClip (a b : Grid Nat) : Grid Nat :=
  gOfFn (gH a) (gW a)
    (fun r c =>
      let x : Nat := gGet a 0 r c
      let y : Nat := gGet b 0 r c
      ((x : Int) - (y : Int)).toNat)

/-- Flood marking of zero pixels reachable from the (already marked)
worklist through zero pixels (4-connectivity); each pixel enters the
worklist at most once. -/
def bfsReach (m : Grid Nat) : Nat → Grid Bool → List (Nat × Nat) → Grid Bool
  | 0, R, _ => R
  | _, R, [] => R
  | fuel + 1, R, p :: rest =>
    let st :=
      (nbs4 p.1 p.2).foldl
        (fun (st : Grid Bool × List (Nat × Nat)) q =>
          if q.1 < gH m ∧ q.2 < gW m ∧ gGet m 0 q.1 q.2 = 0 ∧
              gGet st.1 false q.1 q.2 = false then
            (gSet st.1 q.1 q.2 true, q :: st.2)
          else st)
        (R, rest)
    bfsReach m fuel st.1 st.2

/-- Zero pixels reachable from the image border through zero pixels. -/
def bgReach (m : Grid Nat) : Grid Bool :=
  let H := gH m
  let W := gW m
  let seeds :=
    (rasterPositions H W).filter
      (fun p =>
        (p.1 = 0 ∨ p.2 = 0 ∨ p.1 = H - 1 ∨ p.2 = W - 1) ∧ gGet m 0 p.1 p.2 = 0)
  let R0 :=
    seeds.foldl (fun (R : Grid Bool) p => gSet R p.1 p.2 true)
      (gOfFn H W (fun _ _ => false))
  bfsReach m (H * W + 1) R0 seeds

/-- scipy `binary_fill_holes(m).astype(uint8)` with the default cross
structure: a pixel is filled unless it is background connected to the image
border. -/
def binary_fill_holes (m : Grid Nat) : Grid Nat :=
  gOfFn (gH m) (gW m)
    (fun r c => if gGet m 0 r c ≠ 0 ∨ ¬ gGet (bgReach m) false r c then 1 else 0)

/-- Offsets (relative to the 2,2 anchor) of the 5x5 elliptic structuring
element `cv2.getStructuringElement(cv2.MORPH_ELLIPSE, (5, 5))`:
rows 00100 / 11111 / 11111 / 11111 / 00100. -/
def ellipse5 : List (Nat × Nat) :=
  [(0, 2),
   (1, 0), (1, 1), (1, 2), (1, 3), (1, 4),
   (2, 0), (2, 1), (2, 2), (2, 3), (2, 4),
   (3, 0), (3, 1), (3, 2), (3, 3), (3, 4),
   (4, 2)]

/-- Binary erosion with `ellipse5`; out-of-bounds pixels do not constrain the
minimum (cv2's default +inf border value for erosion). -/
def erode5 (g : Grid Nat) : Grid Nat :=
  let H := gH g
  let W := gW g
  gOfFn H W (fun r c =>
    if ellipse5.all (fun od =>
        let ri : Int := (r : Int) + (od.1 : Int) - 2
        let ci : Int := (c : Int) + (od.2 : Int) - 2
        if 0 ≤ ri ∧ ri < (H : Int) ∧ 0 ≤ ci ∧ ci < (W : Int) then
          decide (gGet g 0 ri.toNat ci.toNat ≠ 0)
        else true)
    then 1 else 0)

/-- Binary dilation with `ellipse5` (symmetric kernel); out-of-bounds pixels
contribute nothing to the maximum. -/
def dilate5 (g : Grid Nat) : Grid Nat :=
  let H := gH g
  let W := gW g
  gOfFn H W (fun r c =>
    if ellipse5.any (fun od =>
        let ri : Int := (r : Int) + (od.1 : Int) - 2
        let ci : Int := (c : Int) + (od.2 : Int) - 2
        if 0 ≤ ri ∧ ri < (H : Int) ∧ 0 ≤ ci ∧ ci < (W : Int) then
          decide (gGet g 0 ri.toNat ci.toNat ≠ 0)
        else false)
    then 1 else 0)

/-- `cv2.morphologyEx(g, cv2.MORPH_OPEN, ellipse5)`: erosion then dilation. -/
def opening5 (g : Grid Nat) : Grid Nat := dilate5 (erode5 g)

/-- Priority-queue entry of the watershed flood: elevation value, insertion
age (FIFO tie-break, as in skimage), and pixel position. -/
structure WsEntry where
  v : ℚ
  age : Nat
  r : Nat
  c : Nat
deriving DecidableEq, Repr

/-- Pop the entry minimal by (value, age); returns it with the rest of the
queue. -/
def wsPickMin (q : List WsEntry) : Option (WsEntry × List WsEntry) :=
  match q with
  | [] => none
  | e :: es =>
    let best := es.foldl
      (fun b x => if x.v < b.v ∨ (x.v = b.v ∧ x.age < b.age) then x else b) e
    some (best, q.erase best)

/-- The flood loop of the watershed: pop the lowest pixel, give its label to
every unlabeled in-mask 4-neighbour, push those neighbours. -/
def wsLoop (dist : Grid ℚ) (mask : Grid Nat) :
    Nat → Grid Nat → List WsEntry → Nat → Grid Nat
  | 0, l, _, _ => l
  | fuel + 1, l, q, age =>
    match wsPickMin q with
    | none => l
    | some (e, q') =>
      let lab := gGet l 0 e.r e.c
      let st :=
        (nbs4 e.r e.c).foldl
          (fun (st : Grid Nat × List WsEntry × Nat) p =>
            if gGet mask 0 p.1 p.2 ≠ 0 ∧ gGet st.1 0 p.1 p.2 = 0 then
              (gSet st.1 p.1 p.2 lab,
               ⟨gGet dist 0 p.1 p.2, st.2.2, p.1, p.2⟩ :: st.2.1,
               st.2.2 + 1)
            else st)
          (l, q', age)
      wsLoop dist mask fuel st.1 st.2.1 st.2.2

/-- skimage `watershed(dist, marker, mask=mask)` (connectivity 1, no
compactness): seeds keep their marker labels, flooding is by increasing
elevation with FIFO tie-break, restricted to the mask. -/
def wsSeeds (marker mask : Grid Nat) : List (Nat × Nat) :=
  (rasterPositions (gH mask) (gW mask)).filter
    (fun p => gGet marker 0 p.1 p.2 ≠ 0 ∧ gGet mask 0 p.1 p.2 ≠ 0)

def watershed (dist : Grid ℚ) (marker mask : Grid Nat) : Grid Nat :=
  wsLoop dist mask (2 * gH mask * gW mask + 1)
    (gOfFn (gH mask) (gW mask)
      (fun r c => if gGet mask 0 r c ≠ 0 then gGet marker 0 r c else 0))
    ((wsSeeds marker mask).enum.map
      (fun pi => WsEntry.mk (gGet dist 0 pi.2.1 pi.2.2) pi.1 pi.2.1 pi.2.2))
    (wsSeeds marker mask).length

/-- Channel `k` of a 3-D prediction array (`pred[..., k]`). -/
def chan (pred : Grid (List ℚ)) (k : Nat) : Grid ℚ :=
  gOfFn (gH pred) (gW pred) (fun r c => (gGet pred [] r c).getD k 0)

/-- Lines 43-47: threshold the probability channel at 0.5, label, drop
components below 10 pixels, collapse back to a binary mask. -/
def blbOf (pred : Grid (List ℚ)) : Grid Nat :=
  binarizePos (remove_small_objects (labelComponents (thresholdGE (1/2) (chan pred 0))) 10)

/-- Lines 49-70: min-max normalize each gradient channel, take the 21-tap
Sobel derivative, min-max normalize it, invert, and combine by pixelwise
maximum. -/
def overallRaw (pred : Grid (List ℚ)) : Grid ℚ :=
  let sh := oneMinus (normalizeMinMax (sobelX (normalizeMinMax (chan pred 1))))
  let sv := oneMinus (normalizeMinMax (sobelY (normalizeMinMax (chan pred 2))))
  pointMax sh sv

/-- Lines 71-72: `overall = overall - (1 - blb); overall[overall < 0] = 0`. -/
def overallOf (pred : Grid (List ℚ)) : Grid ℚ :=
  subComplClip (overallRaw pred) (blbOf pred)

/-- Lines 74-76: `dist = -GaussianBlur((1 - overall) * blb, (3,3), 0)`. -/
def distOf (pred : Grid (List ℚ)) : Grid ℚ :=
  gNeg (gaussianBlur3 (distRaw (overallOf pred) (blbOf pred)))

/-- Lines 78-86: threshold `overall` at 0.4, subtract from the mask and clip,
fill holes, open with the 5x5 ellipse, label, drop components below 10
pixels. -/
def markerOf (pred : Grid (List ℚ)) : Grid Nat :=
  remove_small_objects
    (labelComponents
      (opening5 (binary_fill_holes (subClip (blbOf pred) (thresholdGE (2/5) (overallOf pred))))))
    10

/-- `__proc_np_hv` (lines 23-90): the full instance map construction, written
as the source's straight-line code; `proc_np_hv_stages` below relates it to
the named stage functions. -/
def proc_np_hv (pred : Grid (List ℚ)) : Grid Nat :=
  let blb :=
    binarizePos (remove_small_objects (labelComponents (thresholdGE (1/2) (chan pred 0))) 10)
  let sh := oneMinus (normalizeMinMax (sobelX (normalizeMinMax (chan pred 1))))
  let sv := oneMinus (normalizeMinMax (sobelY (normalizeMinMax (chan pred 2))))
  let overall := subComplClip (pointMax sh sv) blb
  let dist := gNeg (gaussianBlur3 (distRaw overall blb))
  let overallT := thresholdGE (2/5) overall
  let marker :=
    remove_small_objects
      (labelComponents (opening5 (binary_fill_holes (subClip blb overallT)))) 10
  watershed dist marker blb

/-- `np.argmax` over a channel list: first index attaining the maximum (ties
go to the lowest index). The empty list defaults to 0; `process` is only
entered with at least one class channel. -/
def argmaxList (l : List ℚ) : Nat :=
  match l with
  | [] => 0
  | x :: xs =>
    (xs.foldl
      (fun (st : Nat × Nat × ℚ) v =>
        if st.2.2 < v then (st.1 + 1, st.1 + 1, v) else (st.1 + 1, st.2.1, st.2.2))
      (0, 0, x)).2.1

/-- `pred_map[..., :k]` (numpy slices truncate, never fail). -/
def sliceTo (pred : Grid (List ℚ)) (k : Nat) : Grid (List ℚ) :=
  pred.map (fun row => row.map (fun px => px.take k))

/-- `pred_map[..., k:]` (numpy slices truncate, never fail). -/
def sliceFrom (pred : Grid (List ℚ)) (k : Nat) : Grid (List ℚ) :=
  pred.map (fun row => row.map (fun px => px.drop k))

/-- Lines 107-109: `pred_type = np.argmax(pred_map[..., :nr_types], axis=-1)`. -/
def predTypeOf (pred : Grid (List ℚ)) (nr_types : Nat) : Grid Nat :=
  gOfFn (gH pred) (gW pred)
    (fun r c => argmaxList ((gGet pred [] r c).take nr_types))

/-- Lines 110-113: the instance sub-map handed to `__proc_np_hv`. -/
def instSlice (pred : Grid (List ℚ)) (nr_types : Option Nat) : Grid (List ℚ) :=
  match nr_types with
  | some nt => sliceFrom pred nt
  | none => pred

/-- Channel count of a 3-D array (pixel lists are uniform on rectangular
inputs). -/
def chansOf (g : Grid (List ℚ)) : Nat := (gGet g [] 0 0).length

/-- Sizes left after `np.squeeze`: all axes of size one vanish. -/
def numpySqueezeDims (dims : List Nat) : List Nat := dims.filter (fun d => d ≠ 1)

/-- Positions holding the value `i`, in raster order. -/
def truePositions (g : Grid Nat) (i : Nat) : List (Nat × Nat) :=
  (rasterPositions (gH g) (gW g)).filter (fun p => gGet g 0 p.1 p.2 = i)

/-- Modelled from the spec: `hover.misc.utils.get_bounding_box` is imported
by the source but its module is not part of this repository snapshot; the
spec describes it as the primitive returning `(row_min, row_max, col_min,
col_max)` for the true region of a boolean mask, with the exclusive
upper-bound convention matching array slicing. Here the mask is `pred_inst
== inst_id`. -/
def get_bounding_box (g : Grid Nat) (i : Nat) : Nat × Nat × Nat × Nat :=
  let ps := truePositions g i
  let rs := ps.map (fun p => p.1)
  let cs := ps.map (fun p => p.2)
  (rs.foldl min (rs.headD 0), rs.foldl max (rs.headD 0) + 1,
   cs.foldl min (cs.headD 0), cs.foldl max (cs.headD 0) + 1)

/-- `g[r1:r2, c1:c2]` with numpy slice semantics. -/
def cropG (g : Grid α) (r1 r2 c1 c2 : Nat) : Grid α :=
  ((g.drop r1).take (r2 - r1)).map (fun row => (row.drop c1).take (c2 - c1))

/-- The boolean instance mask `pred_inst == inst_id` as a 0/1 image. -/
def instMask (g : Grid Nat) (i : Nat) : Grid Nat :=
  gOfFn (gH g) (gW g) (fun r c => if gGet g 0 r c = i then 1 else 0)

/-- Image moment `m00` of a 0/1 mask: the pixel count. -/
def momentsM00 (m : Grid Nat) : Nat := m.flatten.sum

/-- Image moment `m10`: sum of column indices over mask pixels. -/
def momentsM10 (m : Grid Nat) : Nat :=
  (m.map (fun row => (row.enum.map (fun cv => cv.1 * cv.2)).sum)).sum

/-- Image moment `m01`: sum of row indices over mask pixels. -/
def momentsM01 (m : Grid Nat) : Nat :=
  ((m.enum.map (fun rrow => rrow.1 * rrow.2.sum))).sum

/-- The contour of the cropped mask, as `(x, y)` points in crop-local
coordinates. `cv2.findContours(..., RETR_TREE, CHAIN_APPROX_SIMPLE)` followed
by `inst_contour[0][0]` yields an ordered list of boundary pixels of the
mask; the spec treats the tracing algorithm as out of scope ("produce the
outer polygon boundary ... as an ordered sequence of (x, y) points"), so the
embedding returns the boundary pixels (mask pixels with a background
4-neighbour or on the crop border) in raster order. It is empty exactly when
the crop holds no mask pixel, in which case the source raises. -/
def contourOf (m : Grid Nat) : List (Nat × Nat) :=
  ((rasterPositions (gH m) (gW m)).filter
    (fun p =>
      gGet m 0 p.1 p.2 ≠ 0 ∧
        (p.1 = 0 ∨ p.2 = 0 ∨ p.1 = gH m - 1 ∨ p.2 = gW m - 1 ∨
          (nbs4 p.1 p.2).any (fun q => gGet m 0 q.1 q.2 = 0)))).map
    (fun p => (p.2, p.1))

/-- One per-instance record of `inst_info_dict` (the source uses a dict with
keys "centroid", "contour", and optionally "type" and "probs"). -/
structure InstInfo where
  centroid : ℚ × ℚ
  contour : List (Int × Int)
  typ : Option Nat := none
  probs : Option (List ℚ) := none
deriving DecidableEq, Repr

/-- Lines 124-150: geometric attribute extraction for one instance id: crop
the boolean mask to its bounding box, take moments and the first contour,
translate both back to full-image coordinates. Raises (cv2's v4 protocol
raises IndexError on a missing contour; the centroid division raises
ZeroDivisionError on a zero moment) when the cropped mask is empty. -/
def instCrop (pred_inst : Grid Nat) (inst_id : Nat) : Grid Nat :=
  cropG (instMask pred_inst inst_id) (get_bounding_box pred_inst inst_id).1
    (get_bounding_box pred_inst inst_id).2.1 (get_bounding_box pred_inst inst_id).2.2.1
    (get_bounding_box pred_inst inst_id).2.2.2

def extractInst (pred_inst : Grid Nat) (inst_id : Nat) : Except String InstInfo :=
  if contourOf (instCrop pred_inst inst_id) = [] then
    Except.error "IndexError: no contour found for instance"
  else if momentsM00 (instCrop pred_inst inst_id) = 0 then
    Except.error "ZeroDivisionError: zero area instance"
  else
    Except.ok
      { centroid :=
          ((momentsM10 (instCrop pred_inst inst_id) : ℚ) /
              (momentsM00 (instCrop pred_inst inst_id) : ℚ) +
            ((get_bounding_box pred_inst inst_id).2.2.1 : ℚ),
           (momentsM01 (instCrop pred_inst inst_id) : ℚ) /
              (momentsM00 (instCrop pred_inst inst_id) : ℚ) +
            ((get_bounding_box pred_inst inst_id).1 : ℚ)),
        contour :=
          (contourOf (instCrop pred_inst inst_id)).map
            (fun p => ((p.1 : Int) + ((get_bounding_box pred_inst inst_id).2.2.1 : Int),
              (p.2 : Int) + ((get_bounding_box pred_inst inst_id).1 : Int))) }

/-- Row-major masked selection `b[a == i]` over two equally-shaped grids. -/
def selVals (a b : Grid Nat) (i : Nat) : List Nat :=
  ((a.zip b).map
    (fun rp =>
      (rp.1.zip rp.2).filterMap (fun q => if q.1 = i then some q.2 else none))).flatten

/-- Lines 159-163: crop the instance map and the class map to the instance's
bounding box and select the class values at the instance's pixels. -/
def instValsOf (pred_inst pred_type : Grid Nat) (i : Nat) : List Nat :=
  selVals
    (cropG pred_inst (get_bounding_box pred_inst i).1 (get_bounding_box pred_inst i).2.1
      (get_bounding_box pred_inst i).2.2.1 (get_bounding_box pred_inst i).2.2.2)
    (cropG pred_type (get_bounding_box pred_inst i).1 (get_bounding_box pred_inst i).2.1
      (get_bounding_box pred_inst i).2.2.1 (get_bounding_box pred_inst i).2.2.2) i

/-- Line 164: `np.unique(vals, return_counts=True)` as a list of
(value, count) pairs in ascending value order. -/
def uniqueCounts (vals : List Nat) : List (Nat × Nat) :=
  (sortedNodup vals).map (fun v => (v, vals.count v))

/-- The order of line 166: Python's stable `sorted(..., key=count,
reverse=True)` on the ascending-by-value pair list sorts by descending count
with ties in ascending value order. -/
def typeOrder (a b : Nat × Nat) : Prop :=
  b.2 < a.2 ∨ (a.2 = b.2 ∧ a.1 ≤ b.1)

instance : DecidableRel typeOrder := fun a b => by
  unfold typeOrder; infer_instance

/-- Line 166: the (value, count) pairs sorted by descending pixel count. -/
def typeListOf (vals : List Nat) : List (Nat × Nat) :=
  List.insertionSort typeOrder (uniqueCounts vals)

/-- Lines 167-170: the dominant class, replaced by the runner-up when it is
class 0 and another class exists. (`typeListOf` is nonempty whenever `vals`
is; the `[]` branch mirrors the IndexError Python would raise there.) -/
def instTypeOf (vals : List Nat) : Nat :=
  match typeListOf vals with
  | [] => 0
  | t0 :: rest =>
    if t0.1 = 0 then
      match rest with
      | [] => 0
      | t1 :: _ => t1.1
    else t0.1

/-- Lines 172-177: the dense per-class probability vector. The source writes
`type_pixels_[type_list_.index(type_idx)] / nr_pix` into index `type_idx` of
a zero vector of length `nr_types`; since the unique values are distinct,
`.index` recovers exactly the count paired with the value. -/
def instProbsOf (vals : List Nat) (nr_types : Nat) : List ℚ :=
  (uniqueCounts vals).foldl
    (fun acc tc => acc.set tc.1 ((tc.2 : ℚ) / (vals.length : ℚ)))
    (List.replicate nr_types 0)

/-- Lines 156-178: add "type" (and on request "probs") to one instance's
record. -/
def addClass (pred_inst pred_type : Grid Nat) (nr_types : Nat)
    (return_probs : Bool) (i : Nat) (e : InstInfo) : InstInfo :=
  let vals := instValsOf pred_inst pred_type i
  { e with
    typ := some (instTypeOf vals),
    probs := if return_probs then some (instProbsOf vals nr_types) else none }

/-- Lines 118-178 of `process`: the attribute extraction applied to the
instance label image produced by `__proc_np_hv`. -/
def processFrom (pred_map : Grid (List ℚ)) (nr_types : Option Nat)
    (return_dict return_probs : Bool) (pred_inst : Grid Nat) :
    Except String (Grid Nat × Option (List (Nat × InstInfo))) :=
  if return_dict ∨ nr_types.isSome then
    match ((uniqueVals pred_inst).tail).mapM
        (fun i => (extractInst pred_inst i).map (fun e => (i, e))) with
    | Except.error msg => Except.error msg
    | Except.ok geo =>
      match nr_types with
      | none => Except.ok (pred_inst, some geo)
      | some nt =>
        Except.ok
          (pred_inst,
           some (geo.map
             (fun ie => (ie.1, addClass pred_inst (predTypeOf pred_map nt) nt return_probs ie.1 ie.2))))
  else Except.ok (pred_inst, none)

/-- `process(pred_map, nr_types, return_dict, return_probs)` (lines 93-180):
channel split, `__proc_np_hv`, then `processFrom` above (the attribute
extraction of lines 118-178). The `np.squeeze` call of line 115 only matters
when some array axis has size one; that rank-changing path (which makes
`__proc_np_hv` read columns as channels) is outside this embedding and
flagged as an error, as is the IndexError the source raises when fewer than
three instance channels remain. -/
def process (pred_map : Grid (List ℚ)) (nr_types : Option Nat)
    (return_dict return_probs : Bool) :
    Except String (Grid Nat × Option (List (Nat × InstInfo))) :=
  if gH (instSlice pred_map nr_types) ≤ 1 ∨ gW (instSlice pred_map nr_types) ≤ 1 ∨
      chansOf (instSlice pred_map nr_types) = 1 then
    Except.error "modelling boundary: np.squeeze would change the array rank"
  else if chansOf (instSlice pred_map nr_types) < 3 then
    Except.error "IndexError: missing gradient channels"
  else
    processFrom pred_map nr_types return_dict return_probs
      (proc_np_hv (instSlice pred_map nr_types))

/-- The value `min x k` as a rational: a clamped ramp profile used by the
concrete example inputs (its 21-tap Sobel response exceeds the 0.6 quantile
on a 5-wide run of indices). -/
def rampQ (k : Nat) (x : Nat) : ℚ := if x < k then (x : ℚ) else (k : ℚ)

/-- Example 12x12 3-channel prediction: probability 1 everywhere, horizontal
and vertical gradient channels given by clamped ramps. Its foreground mask is
the whole image, so the watershed output contains no background pixel. -/
def exPred : Grid (List ℚ) := gOfFn 12 12 (fun r c => [1, rampQ 6 c, rampQ 6 r])

/-- Example 12x12 6-channel prediction for `nr_types = 3`: three one-hot
class channels (class 0 on rows 0-8, class 2 on rows 9-11), then probability
1 on rows 2-11 and the same gradient ramps. It produces exactly one instance
(rows 2-11) whose pixels vote 70% class 0 / 30% class 2. -/
def exPredB : Grid (List ℚ) :=
  gOfFn 12 12 (fun r c =>
    (if r < 9 then [1, 0, 0] else [0, 0, 1]) ++
      [if 2 ≤ r then 1 else 0, rampQ 6 c, rampQ 6 r])

/-- The inverted normalized 21-tap Sobel response of the clamped-ramp profile
on 12 samples (computed once; shared by both axes of both examples). -/
def exSobRow : List ℚ :=
  [1, (216865 : ℚ)/396776, (19375 : ℚ)/99194, (3875 : ℚ)/396776, 0, (26163 : ℚ)/198388,
   (17119 : ℚ)/49597, (227393 : ℚ)/396776, (75663 : ℚ)/99194, (353173 : ℚ)/396776,
   (47659 : ℚ)/49597, 1]

/-- `exSobRow` replicated over rows: the horizontal ridge response. -/
def exLH : Grid ℚ := List.replicate 12 exSobRow

/-- `exSobRow` down the columns: the vertical ridge response. -/
def exLV : Grid ℚ := gOfFn 12 12 (fun r _ => exSobRow.getD r 0)

/-- All-ones 12x12 label image. -/
def ones12 : Grid Nat := gOfFn 12 12 (fun _ _ => 1)

/-- The foreground mask of `exPredB`: rows 2-11. -/
def bBlb : Grid Nat := gOfFn 12 12 (fun r _ => if 2 ≤ r then 1 else 0)

/-- The clipped ridge map of `exPred`. -/
def exOverall : Grid ℚ := gOfFn 12 12 (fun r c => max (exSobRow.getD c 0) (exSobRow.getD r 0))

/-- The clipped ridge map of `exPredB`. -/
def bOverall : Grid ℚ :=
  gOfFn 12 12 (fun r c => if 2 ≤ r then max (exSobRow.getD c 0) (exSobRow.getD r 0) else 0)

/-- The marker image of both examples: the 5x5 high-response square opened
with the 5x5 ellipse. -/
def exMark : Grid Nat :=
  gOfFn 12 12 (fun r c =>
    if ((r = 2 ∨ r = 6) ∧ c = 4) ∨ (3 ≤ r ∧ r ≤ 5 ∧ 2 ≤ c ∧ c ≤ 6) then 1 else 0)

/-- The contour of the single instance of `exPredB` (boundary pixels of rows
2-11, in full-image coordinates, raster order). -/
def bContour : List (Int × Int) :=
  ((List.range 12).map (fun x => ((x : Int), (2 : Int)))) ++
    ((List.range 8).flatMap (fun k => [((0 : Int), (k : Int) + 3), ((11 : Int), (k : Int) + 3)])) ++
    ((List.range 12).map (fun x => ((x : Int), (11 : Int))))

/-- The info entry `process` produces for the single instance of `exPredB`
with `nr_types = 3` and `return_probs = true`. -/
def bInfo : InstInfo :=
  { centroid := ((11 : ℚ)/2, (13 : ℚ)/2),
    contour := bContour,
    typ := some 2,
    probs := some [(7 : ℚ)/10, 0, (3 : ℚ)/10] }

/-- The per-pixel argmax class map of `exPredB`. -/
def bPT : Grid Nat := gOfFn 12 12 (fun r _ => if r < 9 then 0 else 2)

/-- A 4x4 prediction map with only 3 channels, used with `nr_types = 2`
(which would require at least 5 channels). -/
def c6Input : Grid (List ℚ) := gOfFn 4 4 (fun _ _ => [1, 0, 0])

/-- Refinement comparison for the foreground-mask contract, following the
spec's words (section 4.1 step 1): threshold `p` at 0.5 to a binary
indicator; label connected components; discard components smaller than 10
pixels; collapse the surviving labels back to a single binary mask. -/
def specForegroundMask (p : Grid ℚ) : Grid Nat :=
  let indicator := thresholdGE (1/2) p
  let labeled := labelComponents indicator
  let kept := remove_small_objects labeled 10
  binarizePos kept

/-- Refinement comparison for the marker contract, following the spec's
words (section 4.1 step 7): threshold `overall` at 0.4; subtract from the
mask and clip at zero; fill interior holes; open with the 5x5 elliptic
structuring element; label connected components and discard components
smaller than 10 pixels. -/
def specMarker (blb : Grid Nat) (overall : Grid ℚ) : Grid Nat :=
  let boundaryFlags := thresholdGE (2/5) overall
  let seeds := subClip blb boundaryFlags
  let filled := binary_fill_holes seeds
  let opened := opening5 filled
  let labeled := labelComponents opened
  remove_small_objects labeled 10

/-- Number of full-image pixels carrying instance id `i` and class `c`. -/
def countPos (li pt : Grid Nat) (i c : Nat) : Nat :=
  ((rasterPositions (gH li) (gW li)).filter
    (fun p => gGet li 0 p.1 p.2 = i ∧ gGet pt 0 p.1 p.2 = c)).length

/-- Number of full-image pixels carrying instance id `i`. -/
def totalPos (li : Grid Nat) (i : Nat) : Nat :=
  ((rasterPositions (gH li) (gW li)).filter (fun p => gGet li 0 p.1 p.2 = i)).length

/-- Every read of the grid (in range or not) yields zero. -/
def ZeroGrid (g : Grid Nat) : Prop := ∀ r c, gGet g 0 r c = 0

/-- Rectangularity: every row has the nominal width. -/
def RectG (g : Grid α) : Prop := ∀ row ∈ g, row.length = gW g

/-- The clamped-ramp horizontal gradient channel of the examples. -/
def hRampG : Grid ℚ := gOfFn 12 12 (fun _ c => rampQ 6 c)

/-- The clamped-ramp vertical gradient channel of the examples. -/
def vRampG : Grid ℚ := gOfFn 12 12 (fun r _ => rampQ 6 r)

/-- The instance sub-map of `exPredB` (channels 3-5). -/
def bPimG : Grid (List ℚ) :=
  gOfFn 12 12 (fun r c => [if 2 ≤ r then (1 : ℚ) else 0, rampQ 6 c, rampQ 6 r])

/-- The basin image (negated blurred interior) of `exPred`, materialized. -/
def exDistL : Grid ℚ := [[(-179911:ℚ)/1587104,(-539733:ℚ)/3174208,(-179911:ℚ)/793552,(-179911:ℚ)/793552,(-179911:ℚ)/793552,(-179911:ℚ)/793552,(-177279:ℚ)/793552,(-612801:ℚ)/3174208,(-200617:ℚ)/1587104,(-98417:ℚ)/1587104,(-74611:ℚ)/3174208,(-969:ℚ)/99194],[(-539733:ℚ)/3174208,(-439641:ℚ)/1587104,(-2577027:ℚ)/6348416,(-339549:ℚ)/793552,(-339549:ℚ)/793552,(-664235:ℚ)/1587104,(-2426539:ℚ)/6348416,(-479579:ℚ)/1587104,(-601851:ℚ)/3174208,(-295251:ℚ)/3174208,(-223833:ℚ)/6348416,(-2907:ℚ)/198388],[(-179911:ℚ)/793552,(-2577027:ℚ)/6348416,(-2103243:ℚ)/3174208,(-4771831:ℚ)/6348416,(-4797005:ℚ)/6348416,(-4496573:ℚ)/6348416,(-3759211:ℚ)/6348416,(-2690943:ℚ)/6348416,(-200617:ℚ)/793552,(-98417:ℚ)/793552,(-74611:ℚ)/1587104,(-969:ℚ)/49597],[(-179911:ℚ)/793552,(-339549:ℚ)/793552,(-4771831:ℚ)/6348416,(-1443729:ℚ)/1587104,(-5854313:ℚ)/6348416,(-2623201:ℚ)/3174208,(-2054375:ℚ)/3174208,(-346357:ℚ)/793552,(-200617:ℚ)/793552,(-98417:ℚ)/793552,(-74611:ℚ)/1587104,(-969:ℚ)/49597],[(-179911:ℚ)/793552,(-339549:ℚ)/793552,(-4797005:ℚ)/6348416,(-5854313:ℚ)/6348416,(-5962759:ℚ)/6348416,(-5325799:ℚ)/6348416,(-1033481:ℚ)/1587104,(-346357:ℚ)/793552,(-200617:ℚ)/793552,(-98417:ℚ)/793552,(-74611:ℚ)/1587104,(-969:ℚ)/49597],[(-179911:ℚ)/793552,(-664235:ℚ)/1587104,(-4496573:ℚ)/6348416,(-2623201:ℚ)/3174208,(-5325799:ℚ)/6348416,(-621393:ℚ)/793552,(-2024649:ℚ)/3174208,(-346357:ℚ)/793552,(-200617:ℚ)/793552,(-98417:ℚ)/793552,(-74611:ℚ)/1587104,(-969:ℚ)/49597],[(-177279:ℚ)/793552,(-2426539:ℚ)/6348416,(-3759211:ℚ)/6348416,(-2054375:ℚ)/3174208,(-1033481:ℚ)/1587104,(-2024649:ℚ)/3174208,(-3608723:ℚ)/6348416,(-2680415:ℚ)/6348416,(-200617:ℚ)/793552,(-98417:ℚ)/793552,(-74611:ℚ)/1587104,(-969:ℚ)/49597],[(-612801:ℚ)/3174208,(-479579:ℚ)/1587104,(-2690943:ℚ)/6348416,(-346357:ℚ)/793552,(-346357:ℚ)/793552,(-346357:ℚ)/793552,(-2680415:ℚ)/6348416,(-568439:ℚ)/1587104,(-1529677:ℚ)/6348416,(-98417:ℚ)/793552,(-74611:ℚ)/1587104,(-969:ℚ)/49597],[(-200617:ℚ)/1587104,(-601851:ℚ)/3174208,(-200617:ℚ)/793552,(-200617:ℚ)/793552,(-200617:ℚ)/793552,(-200617:ℚ)/793552,(-200617:ℚ)/793552,(-1529677:ℚ)/6348416,(-306899:ℚ)/1587104,(-736815:ℚ)/6348416,(-74611:ℚ)/1587104,(-969:ℚ)/49597],[(-98417:ℚ)/1587104,(-295251:ℚ)/3174208,(-98417:ℚ)/793552,(-98417:ℚ)/793552,(-98417:ℚ)/793552,(-98417:ℚ)/793552,(-98417:ℚ)/793552,(-98417:ℚ)/793552,(-736815:ℚ)/6348416,(-137869:ℚ)/1587104,(-270345:ℚ)/6348416,(-969:ℚ)/49597],[(-74611:ℚ)/3174208,(-223833:ℚ)/6348416,(-74611:ℚ)/1587104,(-74611:ℚ)/1587104,(-74611:ℚ)/1587104,(-74611:ℚ)/1587104,(-74611:ℚ)/1587104,(-74611:ℚ)/1587104,(-74611:ℚ)/1587104,(-270345:ℚ)/6348416,(-167635:ℚ)/6348416,(-2907:ℚ)/198388],[(-969:ℚ)/99194,(-2907:ℚ)/198388,(-969:ℚ)/49597,(-969:ℚ)/49597,(-969:ℚ)/49597,(-969:ℚ)/49597,(-969:ℚ)/49597,(-969:ℚ)/49597,(-969:ℚ)/49597,(-969:ℚ)/49597,(-2907:ℚ)/198388,(-969:ℚ)/99194]]

/-- The basin image of `exPredB`, materialized. -/
def bDistL : Grid ℚ := [[0,0,0,0,0,0,0,0,0,0,0,0],[(-179911:ℚ)/3174208,(-339549:ℚ)/3174208,(-1137739:ℚ)/6348416,(-79819:ℚ)/396776,(-79819:ℚ)/396776,(-304413:ℚ)/1587104,(-1008307:ℚ)/6348416,(-346357:ℚ)/3174208,(-200617:ℚ)/3174208,(-98417:ℚ)/3174208,(-74611:ℚ)/6348416,(-969:ℚ)/198388],[(-539733:ℚ)/3174208,(-1018647:ℚ)/3174208,(-1743421:ℚ)/3174208,(-4052187:ℚ)/6348416,(-4077361:ℚ)/6348416,(-3776929:ℚ)/6348416,(-3050095:ℚ)/6348416,(-1039071:ℚ)/3174208,(-601851:ℚ)/3174208,(-295251:ℚ)/3174208,(-223833:ℚ)/6348416,(-2907:ℚ)/198388],[(-179911:ℚ)/793552,(-339549:ℚ)/793552,(-4771831:ℚ)/6348416,(-1443729:ℚ)/1587104,(-5854313:ℚ)/6348416,(-2623201:ℚ)/3174208,(-2054375:ℚ)/3174208,(-346357:ℚ)/793552,(-200617:ℚ)/793552,(-98417:ℚ)/793552,(-74611:ℚ)/1587104,(-969:ℚ)/49597],[(-179911:ℚ)/793552,(-339549:ℚ)/793552,(-4797005:ℚ)/6348416,(-5854313:ℚ)/6348416,(-5962759:ℚ)/6348416,(-5325799:ℚ)/6348416,(-1033481:ℚ)/1587104,(-346357:ℚ)/793552,(-200617:ℚ)/793552,(-98417:ℚ)/793552,(-74611:ℚ)/1587104,(-969:ℚ)/49597],[(-179911:ℚ)/793552,(-664235:ℚ)/1587104,(-4496573:ℚ)/6348416,(-2623201:ℚ)/3174208,(-5325799:ℚ)/6348416,(-621393:ℚ)/793552,(-2024649:ℚ)/3174208,(-346357:ℚ)/793552,(-200617:ℚ)/793552,(-98417:ℚ)/793552,(-74611:ℚ)/1587104,(-969:ℚ)/49597],[(-177279:ℚ)/793552,(-2426539:ℚ)/6348416,(-3759211:ℚ)/6348416,(-2054375:ℚ)/3174208,(-1033481:ℚ)/1587104,(-2024649:ℚ)/3174208,(-3608723:ℚ)/6348416,(-2680415:ℚ)/6348416,(-200617:ℚ)/793552,(-98417:ℚ)/793552,(-74611:ℚ)/1587104,(-969:ℚ)/49597],[(-612801:ℚ)/3174208,(-479579:ℚ)/1587104,(-2690943:ℚ)/6348416,(-346357:ℚ)/793552,(-346357:ℚ)/793552,(-346357:ℚ)/793552,(-2680415:ℚ)/6348416,(-568439:ℚ)/1587104,(-1529677:ℚ)/6348416,(-98417:ℚ)/793552,(-74611:ℚ)/1587104,(-969:ℚ)/49597],[(-200617:ℚ)/1587104,(-601851:ℚ)/3174208,(-200617:ℚ)/793552,(-200617:ℚ)/793552,(-200617:ℚ)/793552,(-200617:ℚ)/793552,(-200617:ℚ)/793552,(-1529677:ℚ)/6348416,(-306899:ℚ)/1587104,(-736815:ℚ)/6348416,(-74611:ℚ)/1587104,(-969:ℚ)/49597],[(-98417:ℚ)/1587104,(-295251:ℚ)/3174208,(-98417:ℚ)/793552,(-98417:ℚ)/793552,(-98417:ℚ)/793552,(-98417:ℚ)/793552,(-98417:ℚ)/793552,(-98417:ℚ)/793552,(-736815:ℚ)/6348416,(-137869:ℚ)/1587104,(-270345:ℚ)/6348416,(-969:ℚ)/49597],[(-74611:ℚ)/3174208,(-223833:ℚ)/6348416,(-74611:ℚ)/1587104,(-74611:ℚ)/1587104,(-74611:ℚ)/1587104,(-74611:ℚ)/1587104,(-74611:ℚ)/1587104,(-74611:ℚ)/1587104,(-74611:ℚ)/1587104,(-270345:ℚ)/6348416,(-167635:ℚ)/6348416,(-2907:ℚ)/198388],[(-969:ℚ)/99194,(-2907:ℚ)/198388,(-969:ℚ)/49597,(-969:ℚ)/49597,(-969:ℚ)/49597,(-969:ℚ)/49597,(-969:ℚ)/49597,(-969:ℚ)/49597,(-969:ℚ)/49597,(-969:ℚ)/49597,(-2907:ℚ)/198388,(-969:ℚ)/99194]]

def zPred : Grid (List ℚ) := gOfFn 2 2 (fun _ _ => [0, 0, 0])

def zLi : Grid Nat := gOfFn 2 2 (fun _ _ => 0)

instance : IsTotal (Nat × Nat) typeOrder :=
  ⟨fun a b => by unfold typeOrder; omega⟩

instance : IsTrans (Nat × Nat) typeOrder :=
  ⟨fun a b c hab hbc => by unfold typeOrder at *; omega⟩

instance {α : Type} (g : Grid α) : Decidable (RectG g) :=
  decidable_of_iff (∀ row ∈ g, row.length = gW g) Iff.rfl

/-- `__proc_np_hv` is the watershed of its three named stages. -/
theorem procStages (pred : Grid (List ℚ)) :
    proc_np_hv pred = watershed (distOf pred) (markerOf pred) (blbOf pred) := rfl

/-- On inputs passing the shape guards, `process` is the attribute extraction
applied to the watershed output of the instance sub-map. -/
theorem process_eq_processFrom (pred : Grid (List ℚ)) (nr : Option Nat) (rd rp : Bool)
    (h1 : ¬ (gH (instSlice pred nr) ≤ 1 ∨ gW (instSlice pred nr) ≤ 1 ∨
      chansOf (instSlice pred nr) = 1))
    (h2 : ¬ chansOf (instSlice pred nr) < 3) :
    process pred nr rd rp = processFrom pred nr rd rp (proc_np_hv (instSlice pred nr)) := by
  unfold process
  rw [if_neg h1, if_neg h2]

theorem exChan1 : chan exPred 1 = hRampG := by decide

theorem exChan2 : chan exPred 2 = vRampG := by decide

set_option maxRecDepth 100000 in
theorem sobelH_ramp :
    oneMinus (normalizeMinMax (sobelX (normalizeMinMax hRampG))) = exLH := by
  decide

set_option maxRecDepth 100000 in
theorem sobelV_ramp :
    oneMinus (normalizeMinMax (sobelY (normalizeMinMax vRampG))) = exLV := by
  decide

set_option maxRecDepth 100000 in
theorem exBlb : blbOf exPred = ones12 := by decide

set_option maxRecDepth 100000 in
theorem exOv : overallOf exPred = exOverall := by
  unfold overallOf overallRaw
  rw [exChan1, exChan2, sobelH_ramp, sobelV_ramp, exBlb]
  decide

set_option maxRecDepth 100000 in
theorem exMarker_eq : markerOf exPred = exMark := by
  unfold markerOf
  rw [exBlb, exOv]
  decide

set_option maxRecDepth 100000 in
theorem exDist_eq : distOf exPred = exDistL := by
  unfold distOf
  rw [exOv, exBlb]
  decide

set_option maxRecDepth 100000 in
set_option maxHeartbeats 4000000 in
theorem exProc : proc_np_hv exPred = ones12 := by
  rw [procStages, exMarker_eq, exDist_eq, exBlb]
  decide

set_option maxRecDepth 100000 in
theorem exProcess : process exPred none true false = Except.ok (ones12, some []) := by
  rw [process_eq_processFrom exPred none true false (by decide) (by decide)]
  have hs : instSlice exPred none = exPred := rfl
  rw [hs, exProc]
  decide

theorem bPim_eq : instSlice exPredB (some 3) = bPimG := by decide

theorem bChan1 : chan bPimG 1 = hRampG := by decide

theorem bChan2 : chan bPimG 2 = vRampG := by decide

set_option maxRecDepth 100000 in
theorem bBlb_eq : blbOf bPimG = bBlb := by decide

set_option maxRecDepth 100000 in
theorem bOv : overallOf bPimG = bOverall := by
  unfold overallOf overallRaw
  rw [bChan1, bChan2, sobelH_ramp, sobelV_ramp, bBlb_eq]
  decide

set_option maxRecDepth 100000 in
theorem bMark_eq : markerOf bPimG = exMark := by
  unfold markerOf
  rw [bBlb_eq, bOv]
  decide

set_option maxRecDepth 100000 in
theorem bDist_eq : distOf bPimG = bDistL := by
  unfold distOf
  rw [bOv, bBlb_eq]
  decide

set_option maxRecDepth 100000 in
set_option maxHeartbeats 4000000 in
theorem bProc : proc_np_hv bPimG = bBlb := by
  rw [procStages, bMark_eq, bDist_eq, bBlb_eq]
  decide

set_option maxRecDepth 100000 in
set_option maxHeartbeats 2000000 in
theorem bProcess :
    process exPredB (some 3) true true = Except.ok (bBlb, some [(1, bInfo)]) := by
  rw [process_eq_processFrom exPredB (some 3) true true (by decide) (by decide)]
  rw [bPim_eq, bProc]
  decide

theorem mem_rasterPositions {H W : Nat} {p : Nat × Nat} :
    p ∈ rasterPositions H W ↔ p.1 < H ∧ p.2 < W := by
  cases p with
  | mk r c => simp [rasterPositions]

theorem gGet_gOfFn {α : Type} (d : α) (f : Nat → Nat → α) {H W r c : Nat}
    (hr : r < H) (hc : c < W) : gGet (gOfFn H W f) d r c = f r c := by
  simp [gGet, gOfFn, List.getD_eq_getElem?_getD, List.getElem?_map,
    List.getElem?_range, hr, hc]

theorem gH_gOfFn {α : Type} (f : Nat → Nat → α) (H W : Nat) : gH (gOfFn H W f) = H := by
  simp [gH, gOfFn]

theorem gW_gOfFn {α : Type} (f : Nat → Nat → α) (H W : Nat) (hH : 0 < H) :
    gW (gOfFn H W f) = W := by
  cases H with
  | zero => exact absurd hH (by simp)
  | succ n => simp [gW, gOfFn, List.range_succ_eq_map]

theorem gGet_cropG {α : Type} (g : Grid α) (d : α) (r1 r2 c1 c2 a b : Nat)
    (ha : a < r2 - r1) (hb : b < c2 - c1) :
    gGet (cropG g r1 r2 c1 c2) d a b = gGet g d (r1 + a) (c1 + b) := by
  simp [gGet, cropG, List.getD_eq_getElem?_getD, List.getElem?_map,
    List.getElem?_take, ha, List.getElem?_drop]
  cases hrow : g[r1 + a]? with
  | none => simp
  | some row =>
    simp [List.getElem?_take, hb, List.getElem?_drop]

theorem contourOf_nil (m : Grid Nat) (hm : ∀ r c, r < gH m → c < gW m → gGet m 0 r c = 0) :
    contourOf m = [] := by
  unfold contourOf
  rw [List.map_eq_nil_iff, List.filter_eq_nil_iff]
  intro p hp
  rw [mem_rasterPositions] at hp
  simp [hm p.1 p.2 hp.1 hp.2]

theorem gGet_gOfFn_oob {α : Type} (d : α) (f : Nat → Nat → α) {H W r c : Nat}
    (h : H ≤ r ∨ W ≤ c) : gGet (gOfFn H W f) d r c = d := by
  rcases h with h | h
  · have : (List.range H)[r]? = none := List.getElem?_eq_none (by simpa using h)
    simp [gGet, gOfFn, List.getD_eq_getElem?_getD, List.getElem?_map, this]
  · simp only [gGet, gOfFn, List.getD_eq_getElem?_getD, List.getElem?_map]
    cases hrow : (List.range H)[r]? with
    | none => simp
    | some a =>
      have : (List.range W)[c]? = none := List.getElem?_eq_none (by simpa using h)
      simp [this]

theorem gH_cropG_le {α : Type} (g : Grid α) (r1 r2 c1 c2 : Nat) :
    gH (cropG g r1 r2 c1 c2) ≤ r2 - r1 := by
  simp [gH, cropG]

theorem gW_cropG_le {α : Type} (g : Grid α) (r1 r2 c1 c2 : Nat) :
    gW (cropG g r1 r2 c1 c2) ≤ c2 - c1 := by
  unfold gW cropG
  cases hl : ((g.drop r1).take (r2 - r1)).map (fun row => (row.drop c1).take (c2 - c1)) with
  | nil => simp
  | cons hd tl =>
    have hmem : hd ∈ ((g.drop r1).take (r2 - r1)).map (fun row => (row.drop c1).take (c2 - c1)) := by
      rw [hl]; exact List.mem_cons_self _ _
    rcases List.mem_map.mp hmem with ⟨row, _, hrow⟩
    simp [← hrow]

theorem instMask_zero_of_no_pos {pi : Grid Nat} {i : Nat}
    (h : truePositions pi i = []) : ∀ r c, gGet (instMask pi i) 0 r c = 0 := by
  intro r c
  by_cases hr : r < gH pi
  · by_cases hc : c < gW pi
    · rw [instMask, gGet_gOfFn 0 _ hr hc]
      have hne : gGet pi 0 r c ≠ i := by
        intro hcontra
        have hmem : (r, c) ∈ truePositions pi i := by
          unfold truePositions
          rw [List.mem_filter]
          exact ⟨mem_rasterPositions.mpr ⟨hr, hc⟩, by simpa using hcontra⟩
        rw [h] at hmem
        cases hmem
      simp [hne]
    · exact gGet_gOfFn_oob 0 _ (Or.inr (Nat.le_of_not_lt hc))
  · exact gGet_gOfFn_oob 0 _ (Or.inl (Nat.le_of_not_lt hr))

/-- Claim C7: an instance whose mask holds no pixel (hence a zero-area crop
and a zero moment denominator) makes the per-instance extraction fail with
an explicit error instead of producing an info entry. -/
theorem c7_degenerate_instance (pi : Grid Nat) (i : Nat)
    (h : truePositions pi i = []) :
    ∃ msg, extractInst pi i = Except.error msg := by
  refine ⟨"IndexError: no contour found for instance", ?_⟩
  have hmz := instMask_zero_of_no_pos h
  have hcont : contourOf (instCrop pi i) = [] := by
    apply contourOf_nil
    intro a b ha hb
    unfold instCrop at ha hb ⊢
    rw [gGet_cropG _ _ _ _ _ _ _ _ (lt_of_lt_of_le ha (gH_cropG_le _ _ _ _ _))
      (lt_of_lt_of_le hb (gW_cropG_le _ _ _ _ _))]
    exact hmz _ _
  simp [extractInst, hcont]

theorem c7_witness :
    truePositions [[0, 0], [0, 0]] 1 = [] ∧
      ∃ msg, extractInst [[0, 0], [0, 0]] 1 = Except.error msg :=
  ⟨by decide, c7_degenerate_instance [[0, 0], [0, 0]] 1 (by decide)⟩

/-- Claim C9: with `return_dict = false` and `nr_types = None`, `process`
skips attribute extraction and returns the label image with no info map. -/
theorem c9_skip_extraction (pred : Grid (List ℚ)) (rp : Bool) (li : Grid Nat)
    (info : Option (List (Nat × InstInfo)))
    (h : process pred none false rp = Except.ok (li, info)) :
    info = none ∧ li = proc_np_hv pred := by
  unfold process at h
  split at h
  · cases h
  · split at h
    · cases h
    · have hs : instSlice pred none = pred := rfl
      rw [hs] at h
      generalize hX : proc_np_hv pred = X at h
      unfold processFrom at h
      rw [if_neg (by simp)] at h
      rw [Except.ok.injEq, Prod.mk.injEq] at h
      subst hX
      exact ⟨h.2.symm, h.1.symm⟩

set_option maxRecDepth 10000 in
theorem c9_witness :
    process zPred none false true = Except.ok (zLi, none) ∧
      ((none : Option (List (Nat × InstInfo))) = none ∧ zLi = proc_np_hv zPred) :=
  have h : process zPred none false true = Except.ok (zLi, none) := by decide
  ⟨h, c9_skip_extraction zPred true zLi none h⟩

/-- Claim C2: the Energy and Marker Builder computes exactly the spec's
foreground-mask and marker pipelines, with the fixed constants 0.5, 10, 0.4,
the 5x5 elliptic element and 10 again, in the spec's order. -/
theorem c2_energy_marker_constants (pred : Grid (List ℚ)) :
    blbOf pred = specForegroundMask (chan pred 0) ∧
      markerOf pred = specMarker (blbOf pred) (overallOf pred) :=
  ⟨rfl, rfl⟩

/-- Claim C6 (code bug): with `nr_types = 2` and a 3-channel input (fewer
than `nr_types + 3 = 5`), the channel-split stage of `process` raises no
InvalidShape error: numpy slicing silently truncates, leaving a single
instance channel that `np.squeeze` collapses to a rank-2 array, which
`__proc_np_hv` then misreads (columns as channels). -/
theorem c6_missing_shape_check :
    chansOf c6Input = 3 ∧ chansOf c6Input < 2 + 3 ∧
      instSlice c6Input (some 2) = gOfFn 4 4 (fun _ _ => [(0 : ℚ)]) ∧
      numpySqueezeDims
        [gH (instSlice c6Input (some 2)), gW (instSlice c6Input (some 2)),
          chansOf (instSlice c6Input (some 2))] = [4, 4] := by
  decide

theorem sortedNodup_sorted (l : List Nat) : (sortedNodup l).Sorted (· ≤ ·) :=
  List.sorted_insertionSort _ _

theorem sortedNodup_nodup (l : List Nat) : (sortedNodup l).Nodup :=
  (List.perm_insertionSort _ _).nodup_iff.mpr l.nodup_dedup

theorem mem_sortedNodup {a : Nat} {l : List Nat} : a ∈ sortedNodup l ↔ a ∈ l := by
  rw [sortedNodup, (List.perm_insertionSort _ _).mem_iff, List.mem_dedup]

theorem mapM_extract_fst {li : Grid Nat} {ids : List Nat} {geo : List (Nat × InstInfo)}
    (h : ids.mapM (fun i => (extractInst li i).map (fun e => (i, e))) = Except.ok geo) :
    geo.map Prod.fst = ids := by
  induction ids generalizing geo with
  | nil =>
    simp only [List.mapM_nil, pure] at h
    cases h
    rfl
  | cons i is ih =>
    rw [List.mapM_cons] at h
    cases hx : extractInst li i with
    | error msg => rw [hx] at h; cases h
    | ok e =>
      rw [hx] at h
      cases hrest : is.mapM (fun i => (extractInst li i).map (fun e => (i, e))) with
      | error msg => rw [hrest] at h; cases h
      | ok gs =>
        rw [hrest] at h
        simp only [Except.map, bind, Except.bind, pure, Except.pure] at h
        cases h
        simp [ih hrest]

theorem mapM_extract_mem {li : Grid Nat} {ids : List Nat} {geo : List (Nat × InstInfo)}
    (h : ids.mapM (fun i => (extractInst li i).map (fun e => (i, e))) = Except.ok geo) :
    ∀ p ∈ geo, extractInst li p.1 = Except.ok p.2 ∧ p.1 ∈ ids := by
  induction ids generalizing geo with
  | nil =>
    simp only [List.mapM_nil, pure] at h
    cases h
    intro p hp
    cases hp
  | cons i is ih =>
    rw [List.mapM_cons] at h
    cases hx : extractInst li i with
    | error msg => rw [hx] at h; cases h
    | ok e =>
      rw [hx] at h
      cases hrest : is.mapM (fun i => (extractInst li i).map (fun e => (i, e))) with
      | error msg => rw [hrest] at h; cases h
      | ok gs =>
        rw [hrest] at h
        simp only [Except.map, bind, Except.bind, pure, Except.pure] at h
        cases h
        intro p hp
        rcases List.mem_cons.mp hp with hp | hp
        · subst hp
          exact ⟨hx, List.mem_cons_self _ _⟩
        · rcases ih hrest p hp with ⟨h1, h2⟩
          exact ⟨h1, List.mem_cons_of_mem _ h2⟩

theorem processFrom_ok_structure {pred : Grid (List ℚ)} {nr : Option Nat} {rd rp : Bool}
    {li li' : Grid Nat} {infos : List (Nat × InstInfo)}
    (h : processFrom pred nr rd rp li = Except.ok (li', some infos)) :
    li' = li ∧ infos.map Prod.fst = (uniqueVals li).tail ∧
      ∀ p ∈ infos, ∃ e, extractInst li p.1 = Except.ok e ∧
        ((nr = none ∧ p.2 = e) ∨
          ∃ nt, nr = some nt ∧ p.2 = addClass li (predTypeOf pred nt) nt rp p.1 e) := by
  unfold processFrom at h
  split at h
  · cases hmapm : (uniqueVals li).tail.mapM
        (fun i => (extractInst li i).map (fun e => (i, e))) with
    | error msg => rw [hmapm] at h; cases h
    | ok geo =>
      rw [hmapm] at h
      cases nr with
      | none =>
        rw [Except.ok.injEq, Prod.mk.injEq] at h
        obtain ⟨h1, h2⟩ := h
        rw [Option.some.injEq] at h2
        subst h2
        refine ⟨h1.symm, mapM_extract_fst hmapm, ?_⟩
        intro p hp
        rcases mapM_extract_mem hmapm p hp with ⟨he, _⟩
        exact ⟨p.2, he, Or.inl ⟨rfl, rfl⟩⟩
      | some nt =>
        rw [Except.ok.injEq, Prod.mk.injEq] at h
        obtain ⟨h1, h2⟩ := h
        rw [Option.some.injEq] at h2
        refine ⟨h1.symm, ?_, ?_⟩
        · rw [← h2, List.map_map]
          have hcomp : (Prod.fst ∘ fun ie : Nat × InstInfo =>
              (ie.1, addClass li (predTypeOf pred nt) nt rp ie.1 ie.2)) = Prod.fst := rfl
          rw [hcomp, mapM_extract_fst hmapm]
        · intro p hp
          rw [← h2] at hp
          rcases List.mem_map.mp hp with ⟨q, hq, hpq⟩
          rcases mapM_extract_mem hmapm q hq with ⟨he, _⟩
          refine ⟨q.2, ?_, Or.inr ⟨nt, rfl, ?_⟩⟩
          · rw [← hpq]; exact he
          · rw [← hpq]
  · cases h

theorem head_zero_of_mem {t : List Nat} {hd : Nat}
    (hs : (hd :: t).Sorted (· ≤ ·)) (hmem : 0 ∈ hd :: t) : hd = 0 := by
  rcases List.mem_cons.mp hmem with h | h
  · exact h.symm
  · exact Nat.le_zero.mp (List.rel_of_sorted_cons hs 0 h)

/-- Claim C5 (amended): whenever extraction is requested and `process`
succeeds with an info map, its key list is `np.unique(label)[1:]` -- the
distinct values of the label image with the smallest one removed, one entry
per id; this equals the distinct non-zero values exactly when the label
image contains a zero pixel. -/
theorem c5_keys_amended (pred : Grid (List ℚ)) (nr : Option Nat) (rd rp : Bool)
    (li : Grid Nat) (infos : List (Nat × InstInfo))
    (h : process pred nr rd rp = Except.ok (li, some infos)) :
    infos.map Prod.fst = (uniqueVals li).tail ∧
      (infos.map Prod.fst).Nodup ∧
      (0 ∈ li.flatten → infos.map Prod.fst = (uniqueVals li).filter (fun v => v ≠ 0)) := by
  unfold process at h
  split at h
  · cases h
  · split at h
    · cases h
    · obtain ⟨h1, h2, _⟩ := processFrom_ok_structure h
      rw [← h1] at h2
      refine ⟨h2, ?_, ?_⟩
      · rw [h2]
        exact (sortedNodup_nodup _).sublist (List.tail_sublist _)
      · intro h0
        rw [h2]
        have hmem : 0 ∈ uniqueVals li := mem_sortedNodup.mpr h0
        have hs : (uniqueVals li).Sorted (· ≤ ·) := sortedNodup_sorted li.flatten
        have hn : (uniqueVals li).Nodup := sortedNodup_nodup li.flatten
        cases huv : uniqueVals li with
        | nil => rw [huv] at hmem; cases hmem
        | cons hd t =>
          rw [huv] at hmem hs hn
          have hhd : hd = 0 := head_zero_of_mem hs hmem
          subst hhd
          have hnz : ∀ x ∈ t, x ≠ 0 := by
            intro x hx hx0
            subst hx0
            exact (List.nodup_cons.mp hn).1 hx
          simp only [List.tail_cons, List.filter_cons]
          rw [if_neg (by simp)]
          exact (List.filter_eq_self.mpr (fun x hx => by simpa using hnz x hx)).symm

set_option maxRecDepth 10000 in
/-- Claim C5 counterexample: on `exPred` the label image is all ones (no
background), `np.unique(...)[1:]` drops instance id 1, and the info map is
empty although the set of distinct non-zero ids is nonempty. -/
theorem c5_counterexample :
    ∃ li infos, process exPred none true false = Except.ok (li, some infos) ∧
      infos.map Prod.fst ≠ (uniqueVals li).filter (fun v => v ≠ 0) := by
  refine ⟨ones12, [], exProcess, ?_⟩
  decide

theorem foldl_fixed {α β : Type} (f : α → β → α) (l : List β) (a : α)
    (h : ∀ x ∈ l, ∀ acc, f acc x = acc) : l.foldl f a = a := by
  induction l generalizing a with
  | nil => rfl
  | cons x xs ih =>
    rw [List.foldl_cons, h x (List.mem_cons_self _ _) a]
    exact ih a (fun y hy acc => h y (List.mem_cons_of_mem _ hy) acc)

theorem gOfFn_congr {α : Type} {H W : Nat} {f g : Nat → Nat → α}
    (h : ∀ r c, r < H → c < W → f r c = g r c) : gOfFn H W f = gOfFn H W g := by
  unfold gOfFn
  apply List.map_congr_left
  intro r hr
  apply List.map_congr_left
  intro c hc
  exact h r c (List.mem_range.mp hr) (List.mem_range.mp hc)

theorem zeroGrid_gOfFn (H W : Nat) : ZeroGrid (gOfFn H W (fun _ _ => 0)) := by
  intro r c
  by_cases hr : r < H
  · by_cases hc : c < W
    · exact gGet_gOfFn 0 _ hr hc
    · exact gGet_gOfFn_oob 0 _ (Or.inr (Nat.le_of_not_lt hc))
  · exact gGet_gOfFn_oob 0 _ (Or.inl (Nat.le_of_not_lt hr))

theorem wsLoop_nil (dist : Grid ℚ) (mask : Grid Nat) (fuel : Nat) (l : Grid Nat) (age : Nat) :
    wsLoop dist mask fuel l [] age = l := by
  cases fuel with
  | zero => rfl
  | succ n => rfl

theorem watershed_zero_mask (dist : Grid ℚ) (marker mask : Grid Nat) (hm : ZeroGrid mask) :
    watershed dist marker mask = gOfFn (gH mask) (gW mask) (fun _ _ => 0) := by
  unfold watershed
  have hseeds : wsSeeds marker mask = [] := by
    unfold wsSeeds
    rw [List.filter_eq_nil_iff]
    intro p _
    simp [hm p.1 p.2]
  rw [hseeds]
  simp only [List.enum_nil, List.map_nil, List.length_nil]
  rw [wsLoop_nil]
  exact gOfFn_congr (fun r c _ _ => by simp [hm r c])

theorem labelComponents_zero (m : Grid Nat) (hm : ZeroGrid m) :
    labelComponents m = gOfFn (gH m) (gW m) (fun _ _ => 0) := by
  unfold labelComponents
  rw [foldl_fixed]
  intro p _ acc
  simp [hm p.1 p.2]

theorem remove_small_objects_zero (g : Grid Nat) (n : Nat) (hg : ZeroGrid g) :
    ZeroGrid (remove_small_objects g n) := by
  intro r c
  by_cases hr : r < gH g
  · by_cases hc : c < gW g
    · rw [remove_small_objects]
      rw [gGet_gOfFn 0 _ hr hc]
      simp [hg r c]
    · exact gGet_gOfFn_oob 0 _ (Or.inr (Nat.le_of_not_lt hc))
  · exact gGet_gOfFn_oob 0 _ (Or.inl (Nat.le_of_not_lt hr))

theorem binarizePos_zero (g : Grid Nat) (hg : ZeroGrid g) : ZeroGrid (binarizePos g) := by
  intro r c
  by_cases hr : r < gH g
  · by_cases hc : c < gW g
    · rw [binarizePos, gGet_gOfFn 0 _ hr hc]
      simp [hg r c]
    · exact gGet_gOfFn_oob 0 _ (Or.inr (Nat.le_of_not_lt hc))
  · exact gGet_gOfFn_oob 0 _ (Or.inl (Nat.le_of_not_lt hr))

theorem thresholdGE_lt_zero (g : Grid ℚ) (t : ℚ) (h : ∀ r c, gGet g 0 r c < t) :
    ZeroGrid (thresholdGE t g) := by
  intro r c
  by_cases hr : r < gH g
  · by_cases hc : c < gW g
    · rw [thresholdGE, gGet_gOfFn 0 _ hr hc, if_neg (not_le.mpr (h r c))]
    · exact gGet_gOfFn_oob 0 _ (Or.inr (Nat.le_of_not_lt hc))
  · exact gGet_gOfFn_oob 0 _ (Or.inl (Nat.le_of_not_lt hr))

theorem zeroGrid_of_eq_gOfFn {g : Grid Nat} {H W : Nat}
    (h : g = gOfFn H W (fun _ _ => 0)) : ZeroGrid g := by
  subst h
  exact zeroGrid_gOfFn H W

theorem blbOf_zero (pred : Grid (List ℚ))
    (hfg : ∀ r c, (gGet pred [] r c).getD 0 0 < 1/2) : ZeroGrid (blbOf pred) := by
  unfold blbOf
  apply binarizePos_zero
  apply remove_small_objects_zero
  apply zeroGrid_of_eq_gOfFn
  apply labelComponents_zero
  apply thresholdGE_lt_zero
  intro r c
  by_cases hr : r < gH pred
  · by_cases hc : c < gW pred
    · rw [chan, gGet_gOfFn 0 _ hr hc]
      exact hfg r c
    · rw [chan, gGet_gOfFn_oob 0 _ (Or.inr (Nat.le_of_not_lt hc))]
      norm_num
  · rw [chan, gGet_gOfFn_oob 0 _ (Or.inl (Nat.le_of_not_lt hr))]
    norm_num

theorem proc_np_hv_zero (pred : Grid (List ℚ))
    (hfg : ∀ r c, (gGet pred [] r c).getD 0 0 < 1/2) :
    proc_np_hv pred = gOfFn (gH (blbOf pred)) (gW (blbOf pred)) (fun _ _ => 0) := by
  rw [procStages]
  exact watershed_zero_mask _ _ _ (blbOf_zero pred hfg)

theorem tail_sortedNodup_zero {l : List Nat} (h : ∀ x ∈ l, x = 0) :
    (sortedNodup l).tail = [] := by
  cases hsn : sortedNodup l with
  | nil => rfl
  | cons a t =>
    cases t with
    | nil => rfl
    | cons b u =>
      have hn := sortedNodup_nodup l
      rw [hsn] at hn
      have ha : a ∈ sortedNodup l := by rw [hsn]; exact List.mem_cons_self _ _
      have hb : b ∈ sortedNodup l := by
        rw [hsn]; exact List.mem_cons_of_mem _ (List.mem_cons_self _ _)
      have ha0 : a = 0 := h a (mem_sortedNodup.mp ha)
      have hb0 : b = 0 := h b (mem_sortedNodup.mp hb)
      subst ha0
      rw [hb0] at hn
      simp at hn

theorem mem_flatten_gOfFn {α : Type} {x : α} {H W : Nat} {f : Nat → Nat → α}
    (hx : x ∈ (gOfFn H W f).flatten) : ∃ r c, r < H ∧ c < W ∧ x = f r c := by
  rcases List.mem_flatten.mp hx with ⟨row, hrow, hxr⟩
  rcases List.mem_map.mp hrow with ⟨r, hr, hrowr⟩
  rw [← hrowr] at hxr
  rcases List.mem_map.mp hxr with ⟨c, hc, hxc⟩
  exact ⟨r, c, List.mem_range.mp hr, List.mem_range.mp hc, hxc.symm⟩

/-- Claim C3: an input whose foreground-probability channel is everywhere
below 0.5 makes `process` succeed with an all-zero label image, and with an
empty info mapping whenever extraction is requested. -/
theorem c3_empty_input (pred : Grid (List ℚ)) (nr : Option Nat) (rd rp : Bool)
    (hg : ¬(gH (instSlice pred nr) ≤ 1 ∨ gW (instSlice pred nr) ≤ 1 ∨
      chansOf (instSlice pred nr) = 1))
    (hc : ¬ chansOf (instSlice pred nr) < 3)
    (hfg : ∀ r c, (gGet (instSlice pred nr) [] r c).getD 0 0 < 1/2) :
    ∃ li info, process pred nr rd rp = Except.ok (li, info) ∧ ZeroGrid li ∧
      ((rd = true ∨ nr.isSome = true) → info = some []) := by
  rw [process_eq_processFrom pred nr rd rp hg hc]
  have hz := proc_np_hv_zero (instSlice pred nr) hfg
  have hzg : ZeroGrid (proc_np_hv (instSlice pred nr)) := zeroGrid_of_eq_gOfFn hz
  have htail : (uniqueVals (proc_np_hv (instSlice pred nr))).tail = [] := by
    apply tail_sortedNodup_zero
    intro x hx
    rw [hz] at hx
    rcases mem_flatten_gOfFn hx with ⟨r, c, _, _, hx0⟩
    exact hx0
  unfold processFrom
  rw [htail]
  by_cases hreq : rd = true ∨ nr.isSome = true
  · rw [if_pos hreq]
    simp only [List.mapM_nil, pure, Except.pure]
    cases nr with
    | none =>
      exact ⟨proc_np_hv (instSlice pred none), some [], rfl, hzg, fun _ => rfl⟩
    | some nt =>
      exact ⟨proc_np_hv (instSlice pred (some nt)), some [], by simp, hzg, fun _ => rfl⟩
  · rw [if_neg hreq]
    exact ⟨proc_np_hv (instSlice pred nr), none, rfl, hzg,
      fun hcontra => absurd hcontra hreq⟩

set_option maxRecDepth 10000 in
theorem c3_witness :
    (¬(gH (instSlice zPred none) ≤ 1 ∨ gW (instSlice zPred none) ≤ 1 ∨
        chansOf (instSlice zPred none) = 1)) ∧
      (∃ li info, process zPred none true false = Except.ok (li, info) ∧ ZeroGrid li ∧
        ((true = true ∨ (none : Option Nat).isSome = true) → info = some [])) :=
  have hfg : ∀ r c, (gGet (instSlice zPred none) [] r c).getD 0 0 < 1/2 := by
    intro r c
    have hss : instSlice zPred none = zPred := rfl
    have hz : (gGet (instSlice zPred none) [] r c).getD 0 0 = 0 := by
      by_cases hr : r < 2
      · by_cases hc : c < 2
        · rw [hss, zPred, gGet_gOfFn [] _ hr hc]
          rfl
        · rw [hss, zPred, gGet_gOfFn_oob [] _ (Or.inr (Nat.le_of_not_lt hc))]
          rfl
      · rw [hss, zPred, gGet_gOfFn_oob [] _ (Or.inl (Nat.le_of_not_lt hr))]
        rfl
    rw [hz]
    norm_num
  ⟨by decide, c3_empty_input zPred none true false (by decide) (by decide) hfg⟩

theorem typeListOf_perm (vals : List Nat) :
    List.Perm (typeListOf vals) (uniqueCounts vals) :=
  List.perm_insertionSort _ _

theorem typeListOf_sorted (vals : List Nat) : (typeListOf vals).Sorted typeOrder :=
  List.sorted_insertionSort _ _

theorem mem_uniqueCounts {vals : List Nat} {p : Nat × Nat} :
    p ∈ uniqueCounts vals ↔ p.1 ∈ vals ∧ p.2 = vals.count p.1 := by
  unfold uniqueCounts
  rw [List.mem_map]
  constructor
  · rintro ⟨v, hv, hp⟩
    rw [← hp]
    exact ⟨mem_sortedNodup.mp hv, rfl⟩
  · rintro ⟨h1, h2⟩
    exact ⟨p.1, mem_sortedNodup.mpr h1, by rw [← h2]⟩

theorem mem_typeListOf {vals : List Nat} {p : Nat × Nat} :
    p ∈ typeListOf vals ↔ p.1 ∈ vals ∧ p.2 = vals.count p.1 := by
  rw [(typeListOf_perm vals).mem_iff, mem_uniqueCounts]

theorem typeListOf_fst_nodup (vals : List Nat) :
    ((typeListOf vals).map Prod.fst).Nodup := by
  have hperm : List.Perm ((typeListOf vals).map Prod.fst)
      ((uniqueCounts vals).map Prod.fst) :=
    (typeListOf_perm vals).map _
  rw [hperm.nodup_iff]
  unfold uniqueCounts
  rw [List.map_map]
  have : (Prod.fst ∘ fun v : Nat => (v, vals.count v)) = id := rfl
  rw [this, List.map_id]
  exact sortedNodup_nodup vals

theorem typeListOf_ne_nil {vals : List Nat} (hne : vals ≠ []) : typeListOf vals ≠ [] := by
  intro hcontra
  rcases List.exists_mem_of_ne_nil vals hne with ⟨v, hv⟩
  have : (v, vals.count v) ∈ typeListOf vals := mem_typeListOf.mpr ⟨hv, rfl⟩
  rw [hcontra] at this
  cases this

theorem count_le_of_sorted_head {t0 : Nat × Nat} {rest : List (Nat × Nat)} {vals : List Nat}
    (hsort : (t0 :: rest).Sorted typeOrder) (hlist : typeListOf vals = t0 :: rest)
    {q : Nat × Nat} (hq : q ∈ typeListOf vals) : q.2 ≤ t0.2 := by
  rw [hlist] at hq
  rcases List.mem_cons.mp hq with h | h
  · rw [h]
  · have := List.rel_of_sorted_cons hsort q h
    unfold typeOrder at this
    omega

/-- The voting rule of lines 164-170: the reported class occurs among the
instance's pixel classes; it is 0 only when 0 is the sole class present;
and whenever a non-zero class is present, the report is a non-zero class of
maximal pixel count among the non-zero classes. -/
theorem instTypeOf_spec (vals : List Nat) (hne : vals ≠ []) :
    instTypeOf vals ∈ vals ∧
      ((∀ v ∈ vals, v = 0) → instTypeOf vals = 0) ∧
      ((∃ v ∈ vals, v ≠ 0) → instTypeOf vals ≠ 0 ∧
        ∀ c ∈ vals, c ≠ 0 → vals.count c ≤ vals.count (instTypeOf vals)) := by
  have hsort := typeListOf_sorted vals
  have hnodup := typeListOf_fst_nodup vals
  cases hlist : typeListOf vals with
  | nil => exact absurd hlist (typeListOf_ne_nil hne)
  | cons t0 rest =>
    have ht0 : t0.1 ∈ vals ∧ t0.2 = vals.count t0.1 :=
      mem_typeListOf.mp (by rw [hlist]; exact List.mem_cons_self _ _)
    rw [hlist] at hsort hnodup
    by_cases h0 : t0.1 = 0
    · cases rest with
      | nil =>
        have hall : ∀ v ∈ vals, v = 0 := by
          intro v hv
          have hm : (v, vals.count v) ∈ typeListOf vals := mem_typeListOf.mpr ⟨hv, rfl⟩
          rw [hlist] at hm
          rcases List.mem_cons.mp hm with h | h
          · have hv0 : v = t0.1 := by rw [← h]
            rw [hv0, h0]
          · cases h
        have hres : instTypeOf vals = 0 := by
          unfold instTypeOf
          rw [hlist]
          simp [h0]
        refine ⟨?_, fun _ => hres, fun hex => ?_⟩
        · rw [hres]
          rcases List.exists_mem_of_ne_nil vals hne with ⟨v, hv⟩
          have := hall v hv
          rw [← this]
          exact hv
        · rcases hex with ⟨v, hv, hvne⟩
          exact absurd (hall v hv) hvne
      | cons t1 rest' =>
        have hres : instTypeOf vals = t1.1 := by
          unfold instTypeOf
          rw [hlist]
          simp [h0]
        have ht1 : t1.1 ∈ vals ∧ t1.2 = vals.count t1.1 :=
          mem_typeListOf.mp
            (by rw [hlist]; exact List.mem_cons_of_mem _ (List.mem_cons_self _ _))
        have ht1ne : t1.1 ≠ 0 := by
          intro hcontra
          have : t0.1 ≠ t1.1 := by
            have := List.nodup_cons.mp hnodup
            intro heq
            exact this.1 (by rw [heq, List.map_cons]; exact List.mem_cons_self _ _)
          exact this (by rw [h0, hcontra])
        refine ⟨by rw [hres]; exact ht1.1, fun hall => absurd (hall t1.1 ht1.1) ht1ne, fun _ => ?_⟩
        refine ⟨by rw [hres]; exact ht1ne, ?_⟩
        intro c hc hcne
        rw [hres, ← ht1.2]
        have hm : (c, vals.count c) ∈ typeListOf vals := mem_typeListOf.mpr ⟨hc, rfl⟩
        rw [hlist] at hm
        rcases List.mem_cons.mp hm with h | h
        · exfalso
          apply hcne
          have hc0 : c = t0.1 := by rw [← h]
          rw [hc0, h0]
        · rcases List.mem_cons.mp h with h | h
          · rw [← h]
          · have hs1 : (t1 :: rest').Sorted typeOrder := hsort.of_cons
            have := List.rel_of_sorted_cons hs1 _ h
            unfold typeOrder at this
            omega
    · have hres : instTypeOf vals = t0.1 := by
        unfold instTypeOf
        rw [hlist]
        simp [h0]
      refine ⟨by rw [hres]; exact ht0.1, fun hall => absurd (hall t0.1 ht0.1) h0, fun _ => ?_⟩
      refine ⟨by rw [hres]; exact h0, ?_⟩
      intro c hc _
      rw [hres, ← ht0.2]
      exact count_le_of_sorted_head hsort hlist
        ((@mem_typeListOf vals (c, vals.count c)).mpr ⟨hc, rfl⟩)

theorem count_filterMap_sel (zs : List (Nat × Nat)) (i c : Nat) :
    ((zs.filterMap (fun q => if q.1 = i then some q.2 else none)).count c)
      = (zs.filter (fun q => q.1 = i ∧ q.2 = c)).length := by
  induction zs with
  | nil => rfl
  | cons z zt ih =>
    by_cases hz : z.1 = i
    · by_cases hc : z.2 = c
      · simp [List.filterMap_cons, List.filter_cons, hz, hc, List.count_cons, ih]
      · simp [List.filterMap_cons, List.filter_cons, hz, hc, List.count_cons, ih]
    · simp [List.filterMap_cons, List.filter_cons, hz, ih]

theorem length_filterMap_sel (zs : List (Nat × Nat)) (i : Nat) :
    (zs.filterMap (fun q => if q.1 = i then some q.2 else none)).length
      = (zs.filter (fun q => q.1 = i)).length := by
  induction zs with
  | nil => rfl
  | cons z zt ih =>
    by_cases hz : z.1 = i
    · simp [List.filterMap_cons, List.filter_cons, hz, ih]
    · simp [List.filterMap_cons, List.filter_cons, hz, ih]

theorem row_zip_filter_countP (f : Nat → Nat → Bool) (ra rb : List Nat) (W : Nat)
    (ha : ra.length = W) (hb : rb.length = W) :
    ((ra.zip rb).filter (fun q => f q.1 q.2)).length
      = ((List.range W).filter (fun k => f (ra.getD k 0) (rb.getD k 0))).length := by
  induction W generalizing ra rb with
  | zero =>
    rw [List.length_eq_zero] at ha hb
    subst ha; subst hb
    rfl
  | succ n ih =>
    cases ra with
    | nil => cases ha
    | cons x xs =>
      cases rb with
      | nil => cases hb
      | cons y ys =>
        have hx : xs.length = n := by simpa using ha
        have hy : ys.length = n := by simpa using hb
        have hmap : ((List.map Nat.succ (List.range n)).filter
              (fun k => f ((x :: xs).getD k 0) ((y :: ys).getD k 0))).length
            = ((List.range n).filter (fun k => f (xs.getD k 0) (ys.getD k 0))).length := by
          rw [List.filter_map, List.length_map]
          rfl
        rw [List.zip_cons_cons, List.filter_cons, List.range_succ_eq_map,
          List.filter_cons]
        simp only [List.getD_cons_zero]
        by_cases hf : f x y
        · rw [if_pos hf, if_pos hf, List.length_cons, List.length_cons, hmap,
            ih xs ys hx hy]
        · rw [if_neg hf, if_neg hf, hmap, ih xs ys hx hy]

theorem length_filter_range (n : Nat) (q : Nat → Bool) :
    ((List.range n).filter q).length
      = Finset.sum (Finset.range n) (fun k => if q k then 1 else 0) := by
  induction n with
  | zero => rfl
  | succ m ih =>
    rw [List.range_succ, List.filter_append, List.length_append,
      Finset.sum_range_succ, ih]
    cases hq : q m <;> simp [hq]

theorem rasterPositions_succ (n W : Nat) :
    rasterPositions (n + 1) W
      = ((List.range W).map (fun c => (0, c)))
        ++ (rasterPositions n W).map (fun p => (p.1 + 1, p.2)) := by
  unfold rasterPositions
  rw [List.range_succ_eq_map, List.flatMap_cons]
  congr 1
  rw [List.flatMap_map, List.map_flatMap]
  apply List.flatMap_congr
  intro r _
  rw [List.map_map]
  rfl

theorem raster_filter_sum (H W : Nat) (P : Nat × Nat → Bool) :
    ((rasterPositions H W).filter P).length
      = Finset.sum (Finset.range H)
          (fun r => Finset.sum (Finset.range W) (fun c => if P (r, c) then 1 else 0)) := by
  induction H generalizing P with
  | zero => rfl
  | succ n ih =>
    rw [rasterPositions_succ, List.filter_append, List.length_append,
      List.filter_map, List.length_map, List.filter_map, List.length_map,
      length_filter_range, ih, Finset.sum_range_succ']
    exact Nat.add_comm _ _

theorem foldl_min_le (l : List Nat) (a : Nat) :
    l.foldl min a ≤ a ∧ ∀ x ∈ l, l.foldl min a ≤ x := by
  induction l generalizing a with
  | nil => exact ⟨Nat.le_refl a, by intro x hx; cases hx⟩
  | cons y ys ih =>
    rcases ih (min a y) with ⟨h1, h2⟩
    refine ⟨Nat.le_trans h1 (Nat.min_le_left a y), ?_⟩
    intro x hx
    rcases List.mem_cons.mp hx with hx | hx
    · subst hx
      exact Nat.le_trans h1 (Nat.min_le_right a x)
    · exact h2 x hx

theorem le_foldl_max (l : List Nat) (a : Nat) :
    a ≤ l.foldl max a ∧ ∀ x ∈ l, x ≤ l.foldl max a := by
  induction l generalizing a with
  | nil => exact ⟨Nat.le_refl a, by intro x hx; cases hx⟩
  | cons y ys ih =>
    rcases ih (max a y) with ⟨h1, h2⟩
    refine ⟨Nat.le_trans (Nat.le_max_left a y) h1, ?_⟩
    intro x hx
    rcases List.mem_cons.mp hx with hx | hx
    · subst hx
      exact Nat.le_trans (Nat.le_max_right a x) h1
    · exact h2 x hx

theorem selVals_count_raster (A B : Grid Nat) (i v W : Nat)
    (hA : ∀ row ∈ A, row.length = W) (hB : ∀ row ∈ B, row.length = W)
    (hlen : A.length = B.length) :
    (selVals A B i).count v
      = ((rasterPositions A.length W).filter
          (fun p => decide (gGet A 0 p.1 p.2 = i ∧ gGet B 0 p.1 p.2 = v))).length := by
  induction A generalizing B with
  | nil => rfl
  | cons ra A' ih =>
    cases B with
    | nil => cases hlen
    | cons rb B' =>
      have hsel : selVals (ra :: A') (rb :: B') i
          = ((ra.zip rb).filterMap (fun q => if q.1 = i then some q.2 else none))
            ++ selVals A' B' i := rfl
      have hra : ra.length = W := hA ra (List.mem_cons_self _ _)
      have hrb : rb.length = W := hB rb (List.mem_cons_self _ _)
      have hA' : ∀ row ∈ A', row.length = W := fun row hr => hA row (List.mem_cons_of_mem _ hr)
      have hB' : ∀ row ∈ B', row.length = W := fun row hr => hB row (List.mem_cons_of_mem _ hr)
      have hlen' : A'.length = B'.length := by simpa using hlen
      have hhead : ((fun p : Nat × Nat =>
              decide (gGet (ra :: A') 0 p.1 p.2 = i ∧ gGet (rb :: B') 0 p.1 p.2 = v))
            ∘ (fun c => (0, c)))
          = (fun k => decide (ra.getD k 0 = i ∧ rb.getD k 0 = v)) := by
        funext k; rfl
      have htail : ((fun p : Nat × Nat =>
              decide (gGet (ra :: A') 0 p.1 p.2 = i ∧ gGet (rb :: B') 0 p.1 p.2 = v))
            ∘ (fun p : Nat × Nat => (p.1 + 1, p.2)))
          = (fun p : Nat × Nat =>
              decide (gGet A' 0 p.1 p.2 = i ∧ gGet B' 0 p.1 p.2 = v)) := by
        funext p; rfl
      rw [hsel, List.count_append, count_filterMap_sel,
        row_zip_filter_countP (fun a b => decide (a = i ∧ b = v)) ra rb W hra hrb,
        ih B' hA' hB' hlen', List.length_cons, rasterPositions_succ,
        List.filter_append, List.length_append, List.filter_map, List.length_map,
        List.filter_map, List.length_map, hhead, htail]

theorem selVals_length_raster (A B : Grid Nat) (i W : Nat)
    (hA : ∀ row ∈ A, row.length = W) (hB : ∀ row ∈ B, row.length = W)
    (hlen : A.length = B.length) :
    (selVals A B i).length
      = ((rasterPositions A.length W).filter
          (fun p => decide (gGet A 0 p.1 p.2 = i))).length := by
  induction A generalizing B with
  | nil => rfl
  | cons ra A' ih =>
    cases B with
    | nil => cases hlen
    | cons rb B' =>
      have hsel : selVals (ra :: A') (rb :: B') i
          = ((ra.zip rb).filterMap (fun q => if q.1 = i then some q.2 else none))
            ++ selVals A' B' i := rfl
      have hra : ra.length = W := hA ra (List.mem_cons_self _ _)
      have hrb : rb.length = W := hB rb (List.mem_cons_self _ _)
      have hA' : ∀ row ∈ A', row.length = W := fun row hr => hA row (List.mem_cons_of_mem _ hr)
      have hB' : ∀ row ∈ B', row.length = W := fun row hr => hB row (List.mem_cons_of_mem _ hr)
      have hlen' : A'.length = B'.length := by simpa using hlen
      have hhead : ((fun p : Nat × Nat => decide (gGet (ra :: A') 0 p.1 p.2 = i))
            ∘ (fun c => (0, c)))
          = (fun k => decide (ra.getD k 0 = i)) := by
        funext k; rfl
      have htail : ((fun p : Nat × Nat => decide (gGet (ra :: A') 0 p.1 p.2 = i))
            ∘ (fun p : Nat × Nat => (p.1 + 1, p.2)))
          = (fun p : Nat × Nat => decide (gGet A' 0 p.1 p.2 = i)) := by
        funext p; rfl
      rw [hsel, List.length_append, length_filterMap_sel,
        row_zip_filter_countP (fun a b => decide (a = i)) ra rb W hra hrb,
        ih B' hA' hB' hlen', List.length_cons, rasterPositions_succ,
        List.filter_append, List.length_append, List.filter_map, List.length_map,
        List.filter_map, List.length_map, hhead, htail]

theorem sum_crop_extend (H W r1 r2 c1 c2 : Nat) (F : Nat → Nat → Nat)
    (hvan : ∀ r c, r < H → c < W → F r c ≠ 0 → r1 ≤ r ∧ r < r2 ∧ c1 ≤ c ∧ c < c2) :
    Finset.sum (Finset.range (min (r2 - r1) (H - r1)))
      (fun r => Finset.sum (Finset.range (min (c2 - c1) (W - c1)))
        (fun c => F (r1 + r) (c1 + c)))
      = Finset.sum (Finset.range H)
          (fun r => Finset.sum (Finset.range W) (fun c => F r c)) := by
  have hcol : ∀ a, a < H →
      Finset.sum (Finset.range (min (c2 - c1) (W - c1))) (fun c => F a (c1 + c))
        = Finset.sum (Finset.range W) (fun c => F a c) := by
    intro a ha
    have hico : Finset.sum (Finset.Ico c1 (c1 + min (c2 - c1) (W - c1))) (fun c => F a c)
        = Finset.sum (Finset.range (min (c2 - c1) (W - c1))) (fun c => F a (c1 + c)) := by
      rw [Finset.sum_Ico_eq_sum_range, Nat.add_sub_cancel_left]
    rw [← hico]
    apply Finset.sum_subset
    · intro x hx
      rw [Finset.mem_Ico] at hx
      rw [Finset.mem_range]
      omega
    · intro x hx hnx
      rw [Finset.mem_range] at hx
      rw [Finset.mem_Ico] at hnx
      by_contra h
      rcases hvan a x ha hx h with ⟨_, _, h3, h4⟩
      omega
  have hcongr : Finset.sum (Finset.range (min (r2 - r1) (H - r1)))
      (fun r => Finset.sum (Finset.range (min (c2 - c1) (W - c1)))
        (fun c => F (r1 + r) (c1 + c)))
      = Finset.sum (Finset.range (min (r2 - r1) (H - r1)))
        (fun r => Finset.sum (Finset.range W) (fun c => F (r1 + r) c)) := by
    apply Finset.sum_congr rfl
    intro r hr
    rw [Finset.mem_range] at hr
    exact hcol (r1 + r) (by omega)
  rw [hcongr]
  have hico : Finset.sum (Finset.Ico r1 (r1 + min (r2 - r1) (H - r1)))
      (fun r => Finset.sum (Finset.range W) (fun c => F r c))
      = Finset.sum (Finset.range (min (r2 - r1) (H - r1)))
        (fun r => Finset.sum (Finset.range W) (fun c => F (r1 + r) c)) := by
    rw [Finset.sum_Ico_eq_sum_range, Nat.add_sub_cancel_left]
  rw [← hico]
  apply Finset.sum_subset
  · intro x hx
    rw [Finset.mem_Ico] at hx
    rw [Finset.mem_range]
    omega
  · intro x hx hnx
    rw [Finset.mem_range] at hx
    rw [Finset.mem_Ico] at hnx
    apply Finset.sum_eq_zero
    intro c hc
    rw [Finset.mem_range] at hc
    by_contra h
    rcases hvan x c hx hc h with ⟨h1, h2, _, _⟩
    omega

theorem cropG_length {α : Type} (g : Grid α) (r1 r2 c1 c2 : Nat) :
    (cropG g r1 r2 c1 c2).length = min (r2 - r1) (g.length - r1) := by
  simp [cropG]

theorem cropG_row_length {α : Type} (g : Grid α) (r1 r2 c1 c2 : Nat) (W : Nat)
    (hg : ∀ row ∈ g, row.length = W) :
    ∀ row ∈ cropG g r1 r2 c1 c2, row.length = min (c2 - c1) (W - c1) := by
  intro row hrow
  simp only [cropG, List.mem_map] at hrow
  rcases hrow with ⟨row0, hrow0, hmap⟩
  have hrow0' : row0 ∈ g := List.mem_of_mem_drop (List.mem_of_mem_take hrow0)
  rw [← hmap, List.length_take, List.length_drop, hg row0 hrow0']

theorem bbox_tight (li : Grid Nat) (i r1 r2 c1 c2 : Nat)
    (hbb : get_bounding_box li i = (r1, r2, c1, c2)) :
    ∀ r c, r < gH li → c < gW li → gGet li 0 r c = i →
      r1 ≤ r ∧ r < r2 ∧ c1 ≤ c ∧ c < c2 := by
  intro r c hr hc hval
  have hmem : (r, c) ∈ truePositions li i := by
    unfold truePositions
    rw [List.mem_filter]
    exact ⟨mem_rasterPositions.mpr ⟨hr, hc⟩, by simpa using hval⟩
  have hrs : r ∈ (truePositions li i).map Prod.fst := List.mem_map_of_mem Prod.fst hmem
  have hcs : c ∈ (truePositions li i).map Prod.snd := List.mem_map_of_mem Prod.snd hmem
  have e1 : ((truePositions li i).map Prod.fst).foldl min
      (((truePositions li i).map Prod.fst).headD 0) = r1 := congrArg Prod.fst hbb
  have e2 : ((truePositions li i).map Prod.fst).foldl max
      (((truePositions li i).map Prod.fst).headD 0) + 1 = r2 :=
    congrArg (fun t => t.2.1) hbb
  have e3 : ((truePositions li i).map Prod.snd).foldl min
      (((truePositions li i).map Prod.snd).headD 0) = c1 :=
    congrArg (fun t => t.2.2.1) hbb
  have e4 : ((truePositions li i).map Prod.snd).foldl max
      (((truePositions li i).map Prod.snd).headD 0) + 1 = c2 :=
    congrArg (fun t => t.2.2.2) hbb
  have h1 := (foldl_min_le ((truePositions li i).map Prod.fst)
    (((truePositions li i).map Prod.fst).headD 0)).2 r hrs
  have h2 := (le_foldl_max ((truePositions li i).map Prod.fst)
    (((truePositions li i).map Prod.fst).headD 0)).2 r hrs
  have h3 := (foldl_min_le ((truePositions li i).map Prod.snd)
    (((truePositions li i).map Prod.snd).headD 0)).2 c hcs
  have h4 := (le_foldl_max ((truePositions li i).map Prod.snd)
    (((truePositions li i).map Prod.snd).headD 0)).2 c hcs
  omega

theorem instValsOf_count_eq (li pt : Grid Nat) (i v : Nat)
    (hli : RectG li) (hpt : RectG pt) (hH : gH pt = gH li) (hW : gW pt = gW li) :
    (instValsOf li pt i).count v = countPos li pt i v := by
  obtain ⟨r1, r2, c1, c2, hbb⟩ : ∃ a b c d, get_bounding_box li i = (a, b, c, d) :=
    ⟨_, _, _, _, rfl⟩
  have htight := bbox_tight li i r1 r2 c1 c2 hbb
  have hArows := cropG_row_length li r1 r2 c1 c2 (gW li) hli
  have hBrows : ∀ row ∈ cropG pt r1 r2 c1 c2, row.length = min (c2 - c1) (gW li - c1) := by
    rw [← hW]
    exact cropG_row_length pt r1 r2 c1 c2 (gW pt) hpt
  have hlens : (cropG li r1 r2 c1 c2).length = (cropG pt r1 r2 c1 c2).length := by
    rw [cropG_length, cropG_length]
    have : (pt : Grid Nat).length = li.length := hH
    rw [this]
  calc (instValsOf li pt i).count v
      = (selVals (cropG li r1 r2 c1 c2) (cropG pt r1 r2 c1 c2) i).count v := by
        unfold instValsOf
        rw [hbb]
    _ = ((rasterPositions (cropG li r1 r2 c1 c2).length (min (c2 - c1) (gW li - c1))).filter
          (fun p => decide (gGet (cropG li r1 r2 c1 c2) 0 p.1 p.2 = i ∧
            gGet (cropG pt r1 r2 c1 c2) 0 p.1 p.2 = v))).length :=
        selVals_count_raster _ _ i v _ hArows hBrows hlens
    _ = Finset.sum (Finset.range (cropG li r1 r2 c1 c2).length)
          (fun r => Finset.sum (Finset.range (min (c2 - c1) (gW li - c1)))
            (fun c => if decide (gGet (cropG li r1 r2 c1 c2) 0 r c = i ∧
                gGet (cropG pt r1 r2 c1 c2) 0 r c = v) = true then 1 else 0)) :=
        raster_filter_sum _ _ _
    _ = Finset.sum (Finset.range (min (r2 - r1) (gH li - r1)))
          (fun r => Finset.sum (Finset.range (min (c2 - c1) (gW li - c1)))
            (fun c => if decide (gGet li 0 (r1 + r) (c1 + c) = i ∧
                gGet pt 0 (r1 + r) (c1 + c) = v) = true then 1 else 0)) := by
        rw [cropG_length]
        apply Finset.sum_congr rfl
        intro r hr
        rw [Finset.mem_range] at hr
        apply Finset.sum_congr rfl
        intro c hc
        rw [Finset.mem_range] at hc
        rw [gGet_cropG li 0 r1 r2 c1 c2 r c (by omega) (by omega),
          gGet_cropG pt 0 r1 r2 c1 c2 r c (by omega) (by omega)]
    _ = Finset.sum (Finset.range (gH li))
          (fun r => Finset.sum (Finset.range (gW li))
            (fun c => if decide (gGet li 0 r c = i ∧ gGet pt 0 r c = v) = true
              then 1 else 0)) := by
        refine sum_crop_extend (gH li) (gW li) r1 r2 c1 c2
          (fun r c => if decide (gGet li 0 r c = i ∧ gGet pt 0 r c = v) = true
            then 1 else 0) ?_
        intro r c hr hc hF
        have hcond : gGet li 0 r c = i ∧ gGet pt 0 r c = v := by
          by_contra hd
          simp only [decide_eq_true_eq] at hF
          simp [hd] at hF
        exact htight r c hr hc hcond.1
    _ = countPos li pt i v := by
        unfold countPos
        rw [raster_filter_sum]

theorem instValsOf_length_eq (li pt : Grid Nat) (i : Nat)
    (hli : RectG li) (hpt : RectG pt) (hH : gH pt = gH li) (hW : gW pt = gW li) :
    (instValsOf li pt i).length = totalPos li i := by
  obtain ⟨r1, r2, c1, c2, hbb⟩ : ∃ a b c d, get_bounding_box li i = (a, b, c, d) :=
    ⟨_, _, _, _, rfl⟩
  have htight := bbox_tight li i r1 r2 c1 c2 hbb
  have hArows := cropG_row_length li r1 r2 c1 c2 (gW li) hli
  have hBrows : ∀ row ∈ cropG pt r1 r2 c1 c2, row.length = min (c2 - c1) (gW li - c1) := by
    rw [← hW]
    exact cropG_row_length pt r1 r2 c1 c2 (gW pt) hpt
  have hlens : (cropG li r1 r2 c1 c2).length = (cropG pt r1 r2 c1 c2).length := by
    rw [cropG_length, cropG_length]
    have : (pt : Grid Nat).length = li.length := hH
    rw [this]
  calc (instValsOf li pt i).length
      = (selVals (cropG li r1 r2 c1 c2) (cropG pt r1 r2 c1 c2) i).length := by
        unfold instValsOf
        rw [hbb]
    _ = ((rasterPositions (cropG li r1 r2 c1 c2).length (min (c2 - c1) (gW li - c1))).filter
          (fun p => decide (gGet (cropG li r1 r2 c1 c2) 0 p.1 p.2 = i))).length :=
        selVals_length_raster _ _ i _ hArows hBrows hlens
    _ = Finset.sum (Finset.range (cropG li r1 r2 c1 c2).length)
          (fun r => Finset.sum (Finset.range (min (c2 - c1) (gW li - c1)))
            (fun c => if decide (gGet (cropG li r1 r2 c1 c2) 0 r c = i) = true
              then 1 else 0)) :=
        raster_filter_sum _ _ _
    _ = Finset.sum (Finset.range (min (r2 - r1) (gH li - r1)))
          (fun r => Finset.sum (Finset.range (min (c2 - c1) (gW li - c1)))
            (fun c => if decide (gGet li 0 (r1 + r) (c1 + c) = i) = true
              then 1 else 0)) := by
        rw [cropG_length]
        apply Finset.sum_congr rfl
        intro r hr
        rw [Finset.mem_range] at hr
        apply Finset.sum_congr rfl
        intro c hc
        rw [Finset.mem_range] at hc
        rw [gGet_cropG li 0 r1 r2 c1 c2 r c (by omega) (by omega)]
    _ = Finset.sum (Finset.range (gH li))
          (fun r => Finset.sum (Finset.range (gW li))
            (fun c => if decide (gGet li 0 r c = i) = true then 1 else 0)) := by
        refine sum_crop_extend (gH li) (gW li) r1 r2 c1 c2
          (fun r c => if decide (gGet li 0 r c = i) = true then 1 else 0) ?_
        intro r c hr hc hF
        have hcond : gGet li 0 r c = i := by
          by_contra hd
          simp [hd] at hF
        exact htight r c hr hc hcond
    _ = totalPos li i := by
        unfold totalPos
        rw [raster_filter_sum]

theorem exists_pos_of_mem_flatten {g : Grid Nat} {x : Nat} (hg : RectG g)
    (hx : x ∈ g.flatten) : ∃ r c, r < gH g ∧ c < gW g ∧ gGet g 0 r c = x := by
  rcases List.mem_flatten.mp hx with ⟨row, hrowmem, hxrow⟩
  rcases List.getElem_of_mem hrowmem with ⟨r, hr, hrowr⟩
  rcases List.getElem_of_mem hxrow with ⟨c, hc, hrc⟩
  refine ⟨r, c, hr, ?_, ?_⟩
  · rw [← hg row hrowmem]
    exact hc
  · show (g.getD r []).getD c 0 = x
    rw [List.getD_eq_getElem?_getD g r, List.getElem?_eq_getElem hr,
      Option.getD_some, hrowr, List.getD_eq_getElem?_getD row c,
      List.getElem?_eq_getElem hc, Option.getD_some, hrc]

theorem totalPos_pos (li : Grid Nat) (i : Nat) (hli : RectG li) (hmem : i ∈ li.flatten) :
    0 < totalPos li i := by
  rcases exists_pos_of_mem_flatten hli hmem with ⟨r, c, hr, hc, hval⟩
  unfold totalPos
  apply List.length_pos_of_mem
  show (r, c) ∈ _
  exact List.mem_filter.mpr ⟨mem_rasterPositions.mpr ⟨hr, hc⟩, by simpa using hval⟩

theorem process_ok_processFrom {pred : Grid (List ℚ)} {nr : Option Nat} {rd rp : Bool}
    {res : Grid Nat × Option (List (Nat × InstInfo))}
    (h : process pred nr rd rp = Except.ok res) :
    processFrom pred nr rd rp (proc_np_hv (instSlice pred nr)) = Except.ok res := by
  unfold process at h
  split at h
  · cases h
  · split at h
    · cases h
    · exact h

/-- C1: with `nr_types` set, each extracted instance's reported type occurs
among the instance's pixels; it is class 0 only when every instance pixel has
class 0, and otherwise it is a non-zero class whose pixel count is maximal
among the non-zero classes of the instance's pixels. -/
theorem c1_type_voting (pred : Grid (List ℚ)) (nt : Nat) (rd rp : Bool)
    (li : Grid Nat) (infos : List (Nat × InstInfo))
    (h : process pred (some nt) rd rp = Except.ok (li, some infos))
    (hli : RectG li) (hpt : RectG (predTypeOf pred nt))
    (hH : gH (predTypeOf pred nt) = gH li) (hW : gW (predTypeOf pred nt) = gW li) :
    ∀ q ∈ infos, ∃ t, q.2.typ = some t ∧
      countPos li (predTypeOf pred nt) q.1 t ≠ 0 ∧
      (t = 0 → ∀ c, c ≠ 0 → countPos li (predTypeOf pred nt) q.1 c = 0) ∧
      (t ≠ 0 → ∀ c, c ≠ 0 →
        countPos li (predTypeOf pred nt) q.1 c ≤ countPos li (predTypeOf pred nt) q.1 t) := by
  have hpf := process_ok_processFrom h
  obtain ⟨hli_eq, hkeys, hper⟩ := processFrom_ok_structure hpf
  intro q hq
  rcases hper q hq with ⟨e, hext, hcase⟩
  rcases hcase with ⟨hnone, _⟩ | ⟨nt2, hsome, hq2⟩
  · cases hnone
  · have hnt : nt = nt2 := by injection hsome
    rw [← hnt] at hq2
    have hmemtail : q.1 ∈ (uniqueVals (proc_np_hv (instSlice pred (some nt)))).tail := by
      rw [← hkeys]
      exact List.mem_map_of_mem Prod.fst hq
    have hmemflat : q.1 ∈ (proc_np_hv (instSlice pred (some nt))).flatten := by
      have h1 : q.1 ∈ uniqueVals (proc_np_hv (instSlice pred (some nt))) :=
        List.mem_of_mem_tail hmemtail
      exact mem_sortedNodup.mp h1
    rw [hli_eq] at hli hH hW ⊢
    have hvals_len : (instValsOf (proc_np_hv (instSlice pred (some nt)))
        (predTypeOf pred nt) q.1).length
        = totalPos (proc_np_hv (instSlice pred (some nt))) q.1 :=
      instValsOf_length_eq _ _ _ hli hpt hH hW
    have hne : instValsOf (proc_np_hv (instSlice pred (some nt)))
        (predTypeOf pred nt) q.1 ≠ [] := by
      have hpos := totalPos_pos _ q.1 hli hmemflat
      intro hnil
      rw [hnil] at hvals_len
      simp at hvals_len
      omega
    have hcount : ∀ v, (instValsOf (proc_np_hv (instSlice pred (some nt)))
        (predTypeOf pred nt) q.1).count v
        = countPos (proc_np_hv (instSlice pred (some nt))) (predTypeOf pred nt) q.1 v :=
      fun v => instValsOf_count_eq _ _ _ v hli hpt hH hW
    obtain ⟨htmem, hall0, hnon0⟩ := instTypeOf_spec _ hne
    have htyp : q.2.typ = some (instTypeOf (instValsOf
        (proc_np_hv (instSlice pred (some nt))) (predTypeOf pred nt) q.1)) := by
      rw [hq2]
      rfl
    refine ⟨_, htyp, ?_, ?_, ?_⟩
    · rw [← hcount]
      have : 0 < (instValsOf (proc_np_hv (instSlice pred (some nt)))
          (predTypeOf pred nt) q.1).count (instTypeOf (instValsOf
            (proc_np_hv (instSlice pred (some nt))) (predTypeOf pred nt) q.1)) :=
        List.count_pos_iff.mpr htmem
      omega
    · intro ht0 c hc0
      rw [← hcount]
      rw [List.count_eq_zero]
      intro hcmem
      have hex : ∃ v ∈ instValsOf (proc_np_hv (instSlice pred (some nt)))
          (predTypeOf pred nt) q.1, v ≠ 0 := ⟨c, hcmem, hc0⟩
      exact (hnon0 hex).1 ht0
    · intro ht0 c hc0
      have hex : ∃ v ∈ instValsOf (proc_np_hv (instSlice pred (some nt)))
          (predTypeOf pred nt) q.1, v ≠ 0 := by
        by_contra hno
        push_neg at hno
        exact ht0 (hall0 hno)
      by_cases hcmem : c ∈ instValsOf (proc_np_hv (instSlice pred (some nt)))
          (predTypeOf pred nt) q.1
      · rw [← hcount, ← hcount]
        exact (hnon0 hex).2 c hcmem hc0
      · rw [← hcount, ← hcount, List.count_eq_zero.mpr hcmem]
        exact Nat.zero_le _

theorem foldl_set_length (L : List (Nat × Nat)) (g : Nat × Nat → ℚ) (acc : List ℚ) :
    (L.foldl (fun a p => a.set p.1 (g p)) acc).length = acc.length := by
  induction L generalizing acc with
  | nil => rfl
  | cons tc L' ih => rw [List.foldl_cons, ih, List.length_set]

theorem foldl_set_getD_not_mem (L : List (Nat × Nat)) (g : Nat × Nat → ℚ) (acc : List ℚ)
    (k : Nat) (hk : k ∉ L.map Prod.fst) :
    (L.foldl (fun a p => a.set p.1 (g p)) acc).getD k 0 = acc.getD k 0 := by
  induction L generalizing acc with
  | nil => rfl
  | cons tc L' ih =>
    have h1 : k ≠ tc.1 := by
      intro he
      exact hk (by rw [List.map_cons, he]; exact List.mem_cons_self _ _)
    have h2 : k ∉ L'.map Prod.fst := by
      intro hm
      exact hk (by rw [List.map_cons]; exact List.mem_cons_of_mem _ hm)
    rw [List.foldl_cons, ih _ h2, List.getD_eq_getElem?_getD,
      List.getD_eq_getElem?_getD, List.getElem?_set_ne (Ne.symm h1)]

theorem foldl_set_getD_mem (L : List (Nat × Nat)) (g : Nat × Nat → ℚ)
    (tc : Nat × Nat) (acc : List ℚ) (hnd : (L.map Prod.fst).Nodup) (htc : tc ∈ L)
    (hk : tc.1 < acc.length) :
    (L.foldl (fun a p => a.set p.1 (g p)) acc).getD tc.1 0 = g tc := by
  induction L generalizing acc with
  | nil => cases htc
  | cons hd L' ih =>
    rw [List.map_cons, List.nodup_cons] at hnd
    rcases List.mem_cons.mp htc with heq | hmem
    · subst heq
      rw [List.foldl_cons, foldl_set_getD_not_mem _ _ _ _ hnd.1,
        List.getD_eq_getElem?_getD, List.getElem?_set_self hk]
      rfl
    · rw [List.foldl_cons]
      exact ih _ hnd.2 hmem (by rw [List.length_set]; exact hk)

/-- C4: with `return_probs` and `nr_types` set, every instance's probs is a
dense length-`nr_types` vector whose entry at class `k` is the instance's
pixel count of class `k` divided by its total pixel count (in particular
exactly 0 for classes absent from the instance). -/
theorem c4_dense_probs (pred : Grid (List ℚ)) (nt : Nat) (rd : Bool)
    (li : Grid Nat) (infos : List (Nat × InstInfo))
    (h : process pred (some nt) rd true = Except.ok (li, some infos))
    (hli : RectG li) (hpt : RectG (predTypeOf pred nt))
    (hH : gH (predTypeOf pred nt) = gH li) (hW : gW (predTypeOf pred nt) = gW li) :
    ∀ q ∈ infos, ∃ pr, q.2.probs = some pr ∧ pr.length = nt ∧
      ∀ k, k < nt → pr.getD k 0
        = ((countPos li (predTypeOf pred nt) q.1 k : ℚ) / (totalPos li q.1 : ℚ)) := by
  have hpf := process_ok_processFrom h
  obtain ⟨hli_eq, hkeys, hper⟩ := processFrom_ok_structure hpf
  intro q hq
  rcases hper q hq with ⟨e, hext, hcase⟩
  rcases hcase with ⟨hnone, _⟩ | ⟨nt2, hsome, hq2⟩
  · cases hnone
  · have hnt : nt = nt2 := by injection hsome
    rw [← hnt] at hq2
    rw [hli_eq] at hli hH hW ⊢
    have hvals_len : (instValsOf (proc_np_hv (instSlice pred (some nt)))
        (predTypeOf pred nt) q.1).length
        = totalPos (proc_np_hv (instSlice pred (some nt))) q.1 :=
      instValsOf_length_eq _ _ _ hli hpt hH hW
    have hcount : ∀ v, (instValsOf (proc_np_hv (instSlice pred (some nt)))
        (predTypeOf pred nt) q.1).count v
        = countPos (proc_np_hv (instSlice pred (some nt))) (predTypeOf pred nt) q.1 v :=
      fun v => instValsOf_count_eq _ _ _ v hli hpt hH hW
    have hprobs : q.2.probs = some (instProbsOf (instValsOf
        (proc_np_hv (instSlice pred (some nt))) (predTypeOf pred nt) q.1) nt) := by
      rw [hq2]
      rfl
    refine ⟨_, hprobs, ?_, ?_⟩
    · show (instProbsOf _ nt).length = nt
      unfold instProbsOf
      rw [foldl_set_length, List.length_replicate]
    · intro k hk
      have hnd : ((uniqueCounts (instValsOf (proc_np_hv (instSlice pred (some nt)))
          (predTypeOf pred nt) q.1)).map Prod.fst).Nodup := by
        unfold uniqueCounts
        rw [List.map_map]
        have hcomp : (Prod.fst ∘ fun v => (v, (instValsOf
            (proc_np_hv (instSlice pred (some nt))) (predTypeOf pred nt) q.1).count v))
            = id := rfl
        rw [hcomp, List.map_id]
        exact sortedNodup_nodup _
      show (instProbsOf _ nt).getD k 0 = _
      unfold instProbsOf
      by_cases hmem : k ∈ instValsOf (proc_np_hv (instSlice pred (some nt)))
          (predTypeOf pred nt) q.1
      · have htc : (k, (instValsOf (proc_np_hv (instSlice pred (some nt)))
            (predTypeOf pred nt) q.1).count k) ∈ uniqueCounts (instValsOf
              (proc_np_hv (instSlice pred (some nt))) (predTypeOf pred nt) q.1) := by
          unfold uniqueCounts
          exact List.mem_map_of_mem _ (mem_sortedNodup.mpr hmem)
        have := foldl_set_getD_mem _
          (fun tc => ((tc.2 : ℚ) / ((instValsOf (proc_np_hv (instSlice pred (some nt)))
            (predTypeOf pred nt) q.1).length : ℚ)))
          _ (List.replicate nt (0 : ℚ)) hnd htc (by rw [List.length_replicate]; exact hk)
        rw [this, hcount, hvals_len]
      · have hnin : k ∉ (uniqueCounts (instValsOf (proc_np_hv (instSlice pred (some nt)))
            (predTypeOf pred nt) q.1)).map Prod.fst := by
          unfold uniqueCounts
          rw [List.map_map]
          have hcomp : (Prod.fst ∘ fun v => (v, (instValsOf
              (proc_np_hv (instSlice pred (some nt))) (predTypeOf pred nt) q.1).count v))
              = id := rfl
          rw [hcomp, List.map_id]
          intro hin
          exact hmem (mem_sortedNodup.mp hin)
        rw [foldl_set_getD_not_mem _ _ _ _ hnin]
        have hrep : (List.replicate nt (0 : ℚ)).getD k 0 = 0 := by
          rw [List.getD_eq_getElem?_getD, List.getElem?_replicate]
          simp [hk]
        rw [hrep, ← hcount]
        rw [List.count_eq_zero.mpr hmem]
        simp

theorem countPos_congr (li pt1 pt2 : Grid Nat) (i : Nat)
    (hagree : ∀ r c, r < gH li → c < gW li → gGet li 0 r c = i →
      gGet pt1 0 r c = gGet pt2 0 r c) (v : Nat) :
    countPos li pt1 i v = countPos li pt2 i v := by
  unfold countPos
  apply congrArg List.length
  apply List.filter_congr
  intro p hp
  rw [mem_rasterPositions] at hp
  by_cases hv : gGet li 0 p.1 p.2 = i
  · rw [hagree p.1 p.2 hp.1 hp.2 hv]
  · simp [hv]

theorem instVals_stats_congr (li pt1 pt2 : Grid Nat) (i nt : Nat)
    (hli : RectG li) (hpt1 : RectG pt1) (hpt2 : RectG pt2)
    (hH1 : gH pt1 = gH li) (hW1 : gW pt1 = gW li)
    (hH2 : gH pt2 = gH li) (hW2 : gW pt2 = gW li)
    (hagree : ∀ r c, r < gH li → c < gW li → gGet li 0 r c = i →
      gGet pt1 0 r c = gGet pt2 0 r c) :
    instTypeOf (instValsOf li pt1 i) = instTypeOf (instValsOf li pt2 i) ∧
      instProbsOf (instValsOf li pt1 i) nt = instProbsOf (instValsOf li pt2 i) nt := by
  have hcnt : ∀ v, (instValsOf li pt1 i).count v = (instValsOf li pt2 i).count v := by
    intro v
    rw [instValsOf_count_eq li pt1 i v hli hpt1 hH1 hW1,
      instValsOf_count_eq li pt2 i v hli hpt2 hH2 hW2]
    exact countPos_congr li pt1 pt2 i hagree v
  have hlen : (instValsOf li pt1 i).length = (instValsOf li pt2 i).length := by
    rw [instValsOf_length_eq li pt1 i hli hpt1 hH1 hW1,
      instValsOf_length_eq li pt2 i hli hpt2 hH2 hW2]
  have hsn : sortedNodup (instValsOf li pt1 i) = sortedNodup (instValsOf li pt2 i) := by
    apply List.eq_of_perm_of_sorted ?_ (sortedNodup_sorted _) (sortedNodup_sorted _)
    rw [List.perm_ext_iff_of_nodup (sortedNodup_nodup _) (sortedNodup_nodup _)]
    intro a
    rw [mem_sortedNodup, mem_sortedNodup, ← List.count_pos_iff, ← List.count_pos_iff, hcnt]
  have huc : uniqueCounts (instValsOf li pt1 i) = uniqueCounts (instValsOf li pt2 i) := by
    unfold uniqueCounts
    rw [hsn]
    apply List.map_congr_left
    intro v _
    rw [hcnt]
  constructor
  · unfold instTypeOf typeListOf
    rw [huc]
  · unfold instProbsOf
    rw [huc, hlen]

/-- C10: the extracted type and probs of instance `i` depend only on the
class-map values at pixels carrying label `i`: two runs whose instance
channels coincide and whose class maps agree on `i`'s pixels produce the
same label image and identical info entries for `i`. -/
theorem c10_class_locality (pred1 pred2 : Grid (List ℚ)) (nt : Nat) (rd rp : Bool)
    (li1 li2 : Grid Nat) (infos1 infos2 : List (Nat × InstInfo)) (i : Nat)
    (h1 : process pred1 (some nt) rd rp = Except.ok (li1, some infos1))
    (h2 : process pred2 (some nt) rd rp = Except.ok (li2, some infos2))
    (hslice : instSlice pred1 (some nt) = instSlice pred2 (some nt))
    (hli : RectG li1)
    (hpt1 : RectG (predTypeOf pred1 nt)) (hpt2 : RectG (predTypeOf pred2 nt))
    (hH1 : gH (predTypeOf pred1 nt) = gH li1) (hW1 : gW (predTypeOf pred1 nt) = gW li1)
    (hH2 : gH (predTypeOf pred2 nt) = gH li1) (hW2 : gW (predTypeOf pred2 nt) = gW li1)
    (hagree : ∀ r c, r < gH li1 → c < gW li1 → gGet li1 0 r c = i →
      gGet (predTypeOf pred1 nt) 0 r c = gGet (predTypeOf pred2 nt) 0 r c) :
    li2 = li1 ∧ ∀ q1 ∈ infos1, ∀ q2 ∈ infos2, q1.1 = i → q2.1 = i → q1.2 = q2.2 := by
  obtain ⟨hli_eq1, hkeys1, hper1⟩ := processFrom_ok_structure (process_ok_processFrom h1)
  obtain ⟨hli_eq2, hkeys2, hper2⟩ := processFrom_ok_structure (process_ok_processFrom h2)
  have hsame : li2 = li1 := by
    rw [hli_eq1, hli_eq2, hslice]
  refine ⟨hsame, ?_⟩
  intro q1 hq1 q2 hq2 hi1 hi2
  rcases hper1 q1 hq1 with ⟨e1, hext1, hcase1⟩
  rcases hper2 q2 hq2 with ⟨e2, hext2, hcase2⟩
  rcases hcase1 with ⟨hnone, _⟩ | ⟨nta, hsomea, hq1e⟩
  · cases hnone
  rcases hcase2 with ⟨hnone, _⟩ | ⟨ntb, hsomeb, hq2e⟩
  · cases hnone
  have hnta : nt = nta := by injection hsomea
  have hntb : nt = ntb := by injection hsomeb
  rw [← hnta] at hq1e
  rw [← hntb] at hq2e
  have hsame' : proc_np_hv (instSlice pred2 (some nt)) = proc_np_hv (instSlice pred1 (some nt)) := by
    rw [hslice]
  rw [hsame'] at hext2 hq2e
  rw [hi1] at hext1 hq1e
  rw [hi2] at hext2 hq2e
  have he : e1 = e2 := by
    rw [hext1] at hext2
    injection hext2
  rw [hli_eq1] at hli hH1 hW1 hH2 hW2 hagree
  obtain ⟨htt, hpp⟩ := instVals_stats_congr (proc_np_hv (instSlice pred1 (some nt)))
    (predTypeOf pred1 nt) (predTypeOf pred2 nt) i nt hli hpt1 hpt2 hH1 hW1 hH2 hW2 hagree
  rw [hq1e, hq2e, ← he]
  simp only [addClass]
  rw [htt, hpp]

theorem enumFrom_weight_le {α : Type} (w : α → Nat) (l : List α) (k : Nat) :
    ((l.enumFrom k).map (fun cv => cv.1 * w cv.2)).sum ≤ (k + l.length - 1) * (l.map w).sum := by
  induction l generalizing k with
  | nil => simp
  | cons x xs ih =>
    rw [List.enumFrom_cons, List.map_cons, List.sum_cons, List.map_cons, List.sum_cons,
      List.length_cons]
    have h1 : (((xs.enumFrom (k + 1)).map (fun cv => cv.1 * w cv.2)).sum)
        ≤ (k + 1 + xs.length - 1) * (xs.map w).sum := ih (k + 1)
    have h2 : k + 1 + xs.length - 1 = k + xs.length := by omega
    have h3 : k + (xs.length + 1) - 1 = k + xs.length := by omega
    rw [h2] at h1
    rw [h3, Nat.mul_add]
    have h4 : k * w x ≤ (k + xs.length) * w x :=
      Nat.mul_le_mul_right _ (by omega)
    have h5 : ((k, x).1 * w (k, x).2) = k * w x := rfl
    rw [h5]
    omega

theorem sum_flatten_eq (l : List (List Nat)) : l.flatten.sum = (l.map List.sum).sum := by
  induction l with
  | nil => rfl
  | cons x xs ih => rw [List.flatten_cons, List.sum_append, List.map_cons, List.sum_cons, ih]

theorem momentsM10_le (m : Grid Nat) (W : Nat) (hrows : ∀ row ∈ m, row.length = W) :
    momentsM10 m ≤ (W - 1) * momentsM00 m := by
  induction m with
  | nil => simp [momentsM10, momentsM00]
  | cons row m' ih =>
    have hrow : row.length = W := hrows row (List.mem_cons_self _ _)
    have hm' : ∀ r ∈ m', r.length = W := fun r hr => hrows r (List.mem_cons_of_mem _ hr)
    unfold momentsM10 momentsM00 at ih ⊢
    rw [List.map_cons, List.sum_cons, List.flatten_cons, List.sum_append, Nat.mul_add]
    have h1 : ((row.enum.map (fun cv => cv.1 * cv.2)).sum) ≤ (W - 1) * row.sum := by
      have := enumFrom_weight_le id row 0
      simp only [List.map_id] at this
      rw [hrow] at this
      have he : (0 : Nat) + W - 1 = W - 1 := by omega
      rw [he] at this
      exact this
    exact Nat.add_le_add h1 (ih hm')

theorem momentsM01_le (m : Grid Nat) : momentsM01 m ≤ (gH m - 1) * momentsM00 m := by
  have h := enumFrom_weight_le List.sum m 0
  have he : (0 : Nat) + m.length - 1 = m.length - 1 := by omega
  rw [he] at h
  unfold momentsM01 momentsM00 gH
  rw [sum_flatten_eq]
  exact h

theorem m00_pos_dims (m : Grid Nat) (W : Nat) (hrows : ∀ row ∈ m, row.length = W)
    (h : momentsM00 m ≠ 0) : 1 ≤ W := by
  unfold momentsM00 at h
  rw [sum_flatten_eq] at h
  have hex : ∃ s ∈ m.map List.sum, s ≠ 0 := by
    by_contra hall
    push_neg at hall
    exact h (List.sum_eq_zero hall)
  rcases hex with ⟨s, hs, hs0⟩
  rcases List.mem_map.mp hs with ⟨row, hrow, hsum⟩
  have hne : row ≠ [] := by
    intro hnil
    rw [hnil] at hsum
    exact hs0 hsum.symm
  have := hrows row hrow
  cases hr : row with
  | nil => exact absurd hr hne
  | cons a as =>
    rw [hr] at this
    simp at this
    omega

theorem extractInst_ok {li : Grid Nat} {i : Nat} {e : InstInfo}
    (h : extractInst li i = Except.ok e) :
    contourOf (instCrop li i) ≠ [] ∧ momentsM00 (instCrop li i) ≠ 0 ∧
      e.contour = (contourOf (instCrop li i)).map
        (fun p => ((p.1 : Int) + ((get_bounding_box li i).2.2.1 : Int),
          (p.2 : Int) + ((get_bounding_box li i).1 : Int))) ∧
      e.centroid = ((momentsM10 (instCrop li i) : ℚ) / (momentsM00 (instCrop li i) : ℚ)
          + ((get_bounding_box li i).2.2.1 : ℚ),
        (momentsM01 (instCrop li i) : ℚ) / (momentsM00 (instCrop li i) : ℚ)
          + ((get_bounding_box li i).1 : ℚ)) := by
  unfold extractInst at h
  split at h
  · cases h
  · next hc =>
    split at h
    · cases h
    · next hm =>
      cases h
      exact ⟨hc, hm, rfl, rfl⟩

theorem instMask_rows (g : Grid Nat) (i : Nat) :
    ∀ row ∈ instMask g i, row.length = gW g := by
  intro row hrow
  unfold instMask gOfFn at hrow
  rcases List.mem_map.mp hrow with ⟨r, _, hrr⟩
  rw [← hrr, List.length_map, List.length_range]

theorem bbox_lt (g : Grid Nat) (i : Nat) :
    (get_bounding_box g i).1 < (get_bounding_box g i).2.1 ∧
      (get_bounding_box g i).2.2.1 < (get_bounding_box g i).2.2.2 := by
  have e1 : ((truePositions g i).map Prod.fst).foldl min
      (((truePositions g i).map Prod.fst).headD 0) = (get_bounding_box g i).1 := rfl
  have e2 : ((truePositions g i).map Prod.fst).foldl max
      (((truePositions g i).map Prod.fst).headD 0) + 1 = (get_bounding_box g i).2.1 := rfl
  have e3 : ((truePositions g i).map Prod.snd).foldl min
      (((truePositions g i).map Prod.snd).headD 0) = (get_bounding_box g i).2.2.1 := rfl
  have e4 : ((truePositions g i).map Prod.snd).foldl max
      (((truePositions g i).map Prod.snd).headD 0) + 1 = (get_bounding_box g i).2.2.2 := rfl
  have h1 := (foldl_min_le ((truePositions g i).map Prod.fst)
    (((truePositions g i).map Prod.fst).headD 0)).1
  have h2 := (le_foldl_max ((truePositions g i).map Prod.fst)
    (((truePositions g i).map Prod.fst).headD 0)).1
  have h3 := (foldl_min_le ((truePositions g i).map Prod.snd)
    (((truePositions g i).map Prod.snd).headD 0)).1
  have h4 := (le_foldl_max ((truePositions g i).map Prod.snd)
    (((truePositions g i).map Prod.snd).headD 0)).1
  omega

theorem m00_pos_height (m : Grid Nat) (h : momentsM00 m ≠ 0) : 1 ≤ gH m := by
  cases m with
  | nil => exact absurd rfl h
  | cons r m' => simp [gH]

/-- C8: every reported contour point and the reported centroid of each
extracted instance lie, after the bbox-local to full-image translation,
within that instance's bounding box `[rmin, rmax) x [cmin, cmax)` (contour
points are `(x, y)` with `x` a column and `y` a row; the centroid likewise). -/
theorem c8_round_trip (pred : Grid (List ℚ)) (nr : Option Nat) (rd rp : Bool)
    (li : Grid Nat) (infos : List (Nat × InstInfo))
    (h : process pred nr rd rp = Except.ok (li, some infos)) :
    ∀ q ∈ infos,
      (∀ p ∈ q.2.contour,
        ((get_bounding_box li q.1).2.2.1 : Int) ≤ p.1 ∧
          p.1 < ((get_bounding_box li q.1).2.2.2 : Int) ∧
          ((get_bounding_box li q.1).1 : Int) ≤ p.2 ∧
          p.2 < ((get_bounding_box li q.1).2.1 : Int)) ∧
      ((get_bounding_box li q.1).2.2.1 : ℚ) ≤ q.2.centroid.1 ∧
        q.2.centroid.1 < ((get_bounding_box li q.1).2.2.2 : ℚ) ∧
        ((get_bounding_box li q.1).1 : ℚ) ≤ q.2.centroid.2 ∧
        q.2.centroid.2 < ((get_bounding_box li q.1).2.1 : ℚ) := by
  obtain ⟨hli_eq, hkeys, hper⟩ := processFrom_ok_structure (process_ok_processFrom h)
  rw [hli_eq]
  intro q hq
  rcases hper q hq with ⟨e, hext, hcase⟩
  have hfields : q.2.contour = e.contour ∧ q.2.centroid = e.centroid := by
    rcases hcase with ⟨_, hq2⟩ | ⟨nt2, _, hq2⟩
    · rw [hq2]
      exact ⟨rfl, rfl⟩
    · rw [hq2]
      exact ⟨rfl, rfl⟩
  obtain ⟨hcne, hm0, hcont, hcent⟩ := extractInst_ok hext
  have hrows := cropG_row_length (instMask (proc_np_hv (instSlice pred nr)) q.1)
    (get_bounding_box (proc_np_hv (instSlice pred nr)) q.1).1
    (get_bounding_box (proc_np_hv (instSlice pred nr)) q.1).2.1
    (get_bounding_box (proc_np_hv (instSlice pred nr)) q.1).2.2.1
    (get_bounding_box (proc_np_hv (instSlice pred nr)) q.1).2.2.2
    (gW (proc_np_hv (instSlice pred nr)))
    (instMask_rows (proc_np_hv (instSlice pred nr)) q.1)
  have hW1 : 1 ≤ min ((get_bounding_box (proc_np_hv (instSlice pred nr)) q.1).2.2.2 -
      (get_bounding_box (proc_np_hv (instSlice pred nr)) q.1).2.2.1)
      (gW (proc_np_hv (instSlice pred nr)) -
        (get_bounding_box (proc_np_hv (instSlice pred nr)) q.1).2.2.1) :=
    m00_pos_dims _ _ hrows hm0
  have hH1 : 1 ≤ gH (instCrop (proc_np_hv (instSlice pred nr)) q.1) :=
    m00_pos_height _ hm0
  have hm10 := momentsM10_le (instCrop (proc_np_hv (instSlice pred nr)) q.1) _ hrows
  have hm01 := momentsM01_le (instCrop (proc_np_hv (instSlice pred nr)) q.1)
  have hgh : gH (instCrop (proc_np_hv (instSlice pred nr)) q.1)
      ≤ (get_bounding_box (proc_np_hv (instSlice pred nr)) q.1).2.1 -
        (get_bounding_box (proc_np_hv (instSlice pred nr)) q.1).1 :=
    gH_cropG_le _ _ _ _ _
  have hgw : gW (instCrop (proc_np_hv (instSlice pred nr)) q.1)
      ≤ (get_bounding_box (proc_np_hv (instSlice pred nr)) q.1).2.2.2 -
        (get_bounding_box (proc_np_hv (instSlice pred nr)) q.1).2.2.1 :=
    gW_cropG_le _ _ _ _ _
  have hbl := bbox_lt (proc_np_hv (instSlice pred nr)) q.1
  have hm00Q : (0 : ℚ) < (momentsM00 (instCrop (proc_np_hv (instSlice pred nr)) q.1) : ℚ) := by
    exact_mod_cast Nat.pos_of_ne_zero hm0
  constructor
  · intro p hp
    rw [hfields.1, hcont] at hp
    rcases List.mem_map.mp hp with ⟨q0, hq0, hshift⟩
    unfold contourOf at hq0
    rcases List.mem_map.mp hq0 with ⟨pos, hposf, hq0eq⟩
    have hposmem := (List.mem_filter.mp hposf).1
    rw [mem_rasterPositions] at hposmem
    rw [← hshift, ← hq0eq]
    have h1 : pos.1 < gH (instCrop (proc_np_hv (instSlice pred nr)) q.1) := hposmem.1
    have h2 : pos.2 < gW (instCrop (proc_np_hv (instSlice pred nr)) q.1) := hposmem.2
    have hgh' := hgh
    have hgw' := hgw
    refine ⟨?_, ?_, ?_, ?_⟩ <;>
      simp only [] <;> omega
  · rw [hfields.2, hcent]
    have hdiv10 : (momentsM10 (instCrop (proc_np_hv (instSlice pred nr)) q.1) : ℚ) /
        (momentsM00 (instCrop (proc_np_hv (instSlice pred nr)) q.1) : ℚ)
        ≤ ((min ((get_bounding_box (proc_np_hv (instSlice pred nr)) q.1).2.2.2 -
            (get_bounding_box (proc_np_hv (instSlice pred nr)) q.1).2.2.1)
            (gW (proc_np_hv (instSlice pred nr)) -
              (get_bounding_box (proc_np_hv (instSlice pred nr)) q.1).2.2.1) - 1 : Nat) : ℚ) := by
      rw [div_le_iff₀ hm00Q]
      exact_mod_cast hm10
    have hdiv01 : (momentsM01 (instCrop (proc_np_hv (instSlice pred nr)) q.1) : ℚ) /
        (momentsM00 (instCrop (proc_np_hv (instSlice pred nr)) q.1) : ℚ)
        ≤ ((gH (instCrop (proc_np_hv (instSlice pred nr)) q.1) - 1 : Nat) : ℚ) := by
      rw [div_le_iff₀ hm00Q]
      exact_mod_cast hm01
    have hd10nn : (0 : ℚ) ≤ (momentsM10 (instCrop (proc_np_hv (instSlice pred nr)) q.1) : ℚ) /
        (momentsM00 (instCrop (proc_np_hv (instSlice pred nr)) q.1) : ℚ) :=
      div_nonneg (Nat.cast_nonneg _) (Nat.cast_nonneg _)
    have hd01nn : (0 : ℚ) ≤ (momentsM01 (instCrop (proc_np_hv (instSlice pred nr)) q.1) : ℚ) /
        (momentsM00 (instCrop (proc_np_hv (instSlice pred nr)) q.1) : ℚ) :=
      div_nonneg (Nat.cast_nonneg _) (Nat.cast_nonneg _)
    have hnat10 : (min ((get_bounding_box (proc_np_hv (instSlice pred nr)) q.1).2.2.2 -
        (get_bounding_box (proc_np_hv (instSlice pred nr)) q.1).2.2.1)
        (gW (proc_np_hv (instSlice pred nr)) -
          (get_bounding_box (proc_np_hv (instSlice pred nr)) q.1).2.2.1) - 1)
        + (get_bounding_box (proc_np_hv (instSlice pred nr)) q.1).2.2.1
        < (get_bounding_box (proc_np_hv (instSlice pred nr)) q.1).2.2.2 := by
      omega
    have hnat01 : (gH (instCrop (proc_np_hv (instSlice pred nr)) q.1) - 1)
        + (get_bounding_box (proc_np_hv (instSlice pred nr)) q.1).1
        < (get_bounding_box (proc_np_hv (instSlice pred nr)) q.1).2.1 := by
      omega
    refine ⟨?_, ?_, ?_, ?_⟩
    · show ((get_bounding_box (proc_np_hv (instSlice pred nr)) q.1).2.2.1 : ℚ) ≤ _ + _
      linarith
    · show _ + _ < ((get_bounding_box (proc_np_hv (instSlice pred nr)) q.1).2.2.2 : ℚ)
      have hq10 : ((min ((get_bounding_box (proc_np_hv (instSlice pred nr)) q.1).2.2.2 -
          (get_bounding_box (proc_np_hv (instSlice pred nr)) q.1).2.2.1)
          (gW (proc_np_hv (instSlice pred nr)) -
            (get_bounding_box (proc_np_hv (instSlice pred nr)) q.1).2.2.1) - 1 : Nat) : ℚ)
          + ((get_bounding_box (proc_np_hv (instSlice pred nr)) q.1).2.2.1 : ℚ)
          < ((get_bounding_box (proc_np_hv (instSlice pred nr)) q.1).2.2.2 : ℚ) := by
        exact_mod_cast hnat10
      linarith
    · show ((get_bounding_box (proc_np_hv (instSlice pred nr)) q.1).1 : ℚ) ≤ _ + _
      linarith
    · show _ + _ < ((get_bounding_box (proc_np_hv (instSlice pred nr)) q.1).2.1 : ℚ)
      have hq01 : ((gH (instCrop (proc_np_hv (instSlice pred nr)) q.1) - 1 : Nat) : ℚ)
          + ((get_bounding_box (proc_np_hv (instSlice pred nr)) q.1).1 : ℚ)
          < ((get_bounding_box (proc_np_hv (instSlice pred nr)) q.1).2.1 : ℚ) := by
        exact_mod_cast hnat01
      linarith

theorem c5_witness :
    [((1 : Nat), bInfo)].map Prod.fst = (uniqueVals bBlb).tail ∧
      ([((1 : Nat), bInfo)].map Prod.fst).Nodup ∧
      (0 ∈ bBlb.flatten →
        [((1 : Nat), bInfo)].map Prod.fst = (uniqueVals bBlb).filter (fun v => v ≠ 0)) :=
  c5_keys_amended exPredB (some 3) true true bBlb [(1, bInfo)] bProcess

set_option maxRecDepth 100000 in
theorem c1_witness :
    ∃ t, bInfo.typ = some t ∧
      countPos bBlb (predTypeOf exPredB 3) 1 t ≠ 0 ∧
      (t = 0 → ∀ c, c ≠ 0 → countPos bBlb (predTypeOf exPredB 3) 1 c = 0) ∧
      (t ≠ 0 → ∀ c, c ≠ 0 →
        countPos bBlb (predTypeOf exPredB 3) 1 c ≤ countPos bBlb (predTypeOf exPredB 3) 1 t) :=
  c1_type_voting exPredB 3 true true bBlb [(1, bInfo)] bProcess (by decide) (by decide)
    (by decide) (by decide) (1, bInfo) (List.mem_cons_self _ _)

set_option maxRecDepth 100000 in
theorem c4_witness :
    ∃ pr, bInfo.probs = some pr ∧ pr.length = 3 ∧
      ∀ k, k < 3 → pr.getD k 0
        = ((countPos bBlb (predTypeOf exPredB 3) 1 k : ℚ) / (totalPos bBlb 1 : ℚ)) :=
  c4_dense_probs exPredB 3 true bBlb [(1, bInfo)] bProcess (by decide) (by decide)
    (by decide) (by decide) (1, bInfo) (List.mem_cons_self _ _)

theorem c8_witness :
    (∀ p ∈ bInfo.contour,
      ((get_bounding_box bBlb 1).2.2.1 : Int) ≤ p.1 ∧
        p.1 < ((get_bounding_box bBlb 1).2.2.2 : Int) ∧
        ((get_bounding_box bBlb 1).1 : Int) ≤ p.2 ∧
        p.2 < ((get_bounding_box bBlb 1).2.1 : Int)) ∧
      ((get_bounding_box bBlb 1).2.2.1 : ℚ) ≤ bInfo.centroid.1 ∧
        bInfo.centroid.1 < ((get_bounding_box bBlb 1).2.2.2 : ℚ) ∧
        ((get_bounding_box bBlb 1).1 : ℚ) ≤ bInfo.centroid.2 ∧
        bInfo.centroid.2 < ((get_bounding_box bBlb 1).2.1 : ℚ) :=
  c8_round_trip exPredB (some 3) true true bBlb [(1, bInfo)] bProcess
    (1, bInfo) (List.mem_cons_self _ _)

set_option maxRecDepth 100000 in
theorem c10_witness :
    bBlb = bBlb ∧ ∀ q1 ∈ [((1 : Nat), bInfo)], ∀ q2 ∈ [((1 : Nat), bInfo)],
      q1.1 = 1 → q2.1 = 1 → q1.2 = q2.2 :=
  c10_class_locality exPredB exPredB 3 true true bBlb bBlb [(1, bInfo)] [(1, bInfo)] 1
    bProcess bProcess rfl (by decide) (by decide) (by decide) (by decide) (by decide)
    (by decide) (by decide) (fun _ _ _ _ _ => rfl)
